import Mathlib

/-!
# Verification of the ERSP_vscode execution tracer (`src/run.py`, `src/core.py`)

Shallow embedding of the per-line execution tracer, its loop-tracking state
machine, the timeline materializer, the write-set analyzer, and the test
harness.  Strings are modelled as `List Char`; Python dicts (which preserve
insertion order) are modelled as association lists with insert-or-update
semantics; the Python `bdb` callbacks `user_line` / `user_exception` /
`user_return` are driven by an explicit event list.  Where the Python code
would raise an uncaught exception (e.g. indexing `[-1]` into an empty list,
or indexing a Python list with a string key), the embedding returns an
explicit error value.

External collaborators (the Python parser `ast.parse`, and the evaluation
capability `Bdb.runeval`) are modelled as oracle parameters, since their
implementations live outside this repository.
-/

set_option maxRecDepth 200000
set_option synthInstance.maxSize 10000

deriving instance DecidableEq for Except

/-! ## String helpers (`core.py` / `run.py` top of file) -/

/-- `str.lstrip()`: drop leading whitespace. -/
def lstrip (s : List Char) : List Char := s.dropWhile Char.isWhitespace

/-- `str.strip()`: drop leading and trailing whitespace. -/
def strip (s : List Char) : List Char :=
  ((s.dropWhile Char.isWhitespace).reverse.dropWhile Char.isWhitespace).reverse

/-- `indent(str)` from run.py: `len(str) - len(str.lstrip())`. -/
def indent (s : List Char) : Nat := s.length - (lstrip s).length

/-- Substring test, the semantics of `re.search(pat, s) != None` for a pattern
without metacharacters, and of `s.find(sub) != -1`. -/
def containsSub (needle : List Char) : List Char → Bool
  | [] => needle.isEmpty
  | c :: rest => needle.isPrefixOf (c :: rest) || containsSub needle rest

/-- `is_break_str(str)`: `re.search("break", str.strip()) != None`. -/
def is_break_str (s : List Char) : Bool := containsSub "break".data (strip s)

/-- `is_return_str(str)`: `re.search("return", str.strip()) != None`. -/
def is_return_str (s : List Char) : Bool := containsSub "return".data (strip s)

/-- A regex word character (`\w`), ASCII range as used by the traced sources. -/
def isWordChar (c : Char) : Bool := c.isAlphanum || c = '_'

/-- Matcher for the regex fragment `.*:\w*\n` against a suffix of the line
(trailing characters after the match are allowed, as in `re.search`).
`.` does not match a newline; `\w*\n` succeeds exactly when dropping word
characters lands on a newline. -/
def loopTailMatch : List Char → Bool
  | [] => false
  | c :: rest =>
    (c = ':' && ((rest.dropWhile isWordChar).head? = some '\n'))
      || (c ≠ '\n' && loopTailMatch rest)

/-- `is_loop_str(str)`: `re.search("(for|while).*:\w*\n", str) != None`.
The search tries every start position; at each one the alternation matches the
literal `for` or `while` and then `loopTailMatch` handles `.*:\w*\n`. -/
def is_loop_str : List Char → Bool
  | [] => false
  | c :: rest =>
    ("for".data.isPrefixOf (c :: rest) && loopTailMatch ((c :: rest).drop 3))
      || ("while".data.isPrefixOf (c :: rest) && loopTailMatch ((c :: rest).drop 5))
      || is_loop_str rest

/-- `add_html_escape(html)` from run.py. -/
def add_html_escape (html : List Char) : List Char :=
  "```html\n".data ++ html ++ "\n```".data

/-- `add_red_format(html)` from run.py; the single quotes of the
`<div style='color:red;'>` wrapper are built with `Char.ofNat 39`. -/
def add_red_format (html : List Char) : List Char :=
  "<div style=".data ++ [Char.ofNat 39] ++ "color:red;".data ++ [Char.ofNat 39]
    ++ ">".data ++ html ++ "</div>".data

/-- `magic_var_name` from core.py. -/
def magic_var_name : List Char := "__run_py__".data

/-! ## Line numbers, frames, values -/

/-- A timeline key: either a plain 0-indexed line number, or the
distinguished "return" variant `"R" + str(n)` used by `user_return`. -/
inductive LineNo where
  | norm (n : Nat)
  | ret (n : Nat)
deriving DecidableEq, Repr

/-- `remove_R(lineno)`: strip the `"R"` prefix of a return-variant line. -/
def remove_R : LineNo → Nat
  | .norm n => n
  | .ret n => n

/-- A Python frame object, as far as the tracer observes it: its object
identity (`is` comparisons), `f_code.co_name`, and whether
`f_code.co_filename == "<string>"`.  Distinct runtime frame objects are
modelled with distinct `fid`s. -/
structure Frame where
  fid : Nat
  name : List Char
  filenameIsString : Bool
deriving DecidableEq, Repr

/-- A traced Python value, by its canonical textual form.  Functions and
modules are distinguished because `compute_repr` omits them entirely. -/
inductive Value where
  | func
  | module
  | other (text : List Char)
deriving DecidableEq, Repr

/-- `compute_repr(v)` from run.py: `None` for functions and modules,
`repr(v)` otherwise. -/
def compute_repr : Value → Option (List Char)
  | .func => none
  | .module => none
  | .other t => some t

/-- The live bindings of a frame at one notification: the frame object plus
its `f_locals` in iteration order. -/
structure FrameSnap where
  frame : Frame
  locals : List (List Char × Value)
deriving DecidableEq, Repr

/-- An exception observed by `user_exception`: class name and message. -/
structure ExcInfo where
  className : List Char
  msg : List Char
deriving DecidableEq, Repr

/-! ## Environments and the per-line timeline -/

/-- One recorded Environment: a Python dict whose possible keys are
`"frame"`, `"time"`, `"#"` (loop iteration counts), `"$"` (loop header line
ids), the captured variables, `"lineno"`, `"prev_lineno"`, `"next_lineno"`,
`"rv"`, `"Exception Thrown"`, and for markers `"begin_loop"` / `"end_loop"`.
Absent keys are `none` / `[]`. -/
structure Env where
  frame : Option Frame := none
  time : Option Nat := none
  iterStr : List Char := []
  idStr : List Char := []
  begin_loop : Option (List Char) := none
  end_loop : Option (List Char) := none
  vars : List (List Char × List Char) := []
  lineno : Option LineNo := none
  prev_lineno : Option LineNo := none
  next_lineno : Option LineNo := none
  rv : Option (List Char) := none
  excThrown : Option (List Char) := none
deriving DecidableEq, Repr

/-- The raw timeline `self.data`: an insertion-ordered dict from line keys to
the list of Environments recorded at that line. -/
abbrev TimelineData := List (LineNo × List Env)

/-- Dict lookup on the timeline. -/
def dataFind : TimelineData → LineNo → Option (List Env)
  | [], _ => none
  | (k, v) :: rest, l => if k = l then some v else dataFind rest l

/-- `data_at(l)` used for reading: the list at key `l`, `[]` when the key is
absent. -/
def dataAt (d : TimelineData) (l : LineNo) : List Env := (dataFind d l).getD []

/-- `self.data_at(l).append(env)`: append to the list at key `l`, inserting
the key at the end of the dict when absent (Python dict insertion order). -/
def dataAppendEnv : TimelineData → LineNo → Env → TimelineData
  | [], l, e => [(l, [e])]
  | (k, v) :: rest, l, e =>
    if k = l then (k, v ++ [e]) :: rest else (k, v) :: dataAppendEnv rest l e

/-- The side effect of a bare `self.data_at(l)` call: the key is inserted
with an empty list when absent. -/
def dataEnsureKey : TimelineData → LineNo → TimelineData
  | [], l => [(l, [])]
  | (k, v) :: rest, l =>
    if k = l then (k, v) :: rest else (k, v) :: dataEnsureKey rest l

/-- Mutation of the previous Environment's `"next_lineno"` field through its
alias stored in `self.data`; the object is identified by its unique time
stamp. -/
def dataSetNextByTime (d : TimelineData) (t : Option Nat) (l : LineNo) : TimelineData :=
  d.map fun kv =>
    (kv.1, kv.2.map fun e => if e.time = t then { e with next_lineno := some l } else e)

/-- Mutate the last element of a list in place (`lst[-1]`), total version used
when the list is known non-empty. -/
def modifyLastEnv (f : Env → Env) : List Env → List Env
  | [] => []
  | [e] => [f e]
  | e :: e' :: rest => e :: modifyLastEnv f (e' :: rest)

/-- `self.data_at(l)[-1] = f(...)`-style update at key `l`. -/
def dataModifyLast (d : TimelineData) (l : LineNo) (f : Env → Env) : TimelineData :=
  d.map fun kv => if kv.1 = l then (kv.1, modifyLastEnv f kv.2) else kv

/-! ## The Logger state machine (`class Logger(bdb.Bdb)`) -/

/-- `class LoopInfo`: one entry of the active-loop stack. -/
structure LoopInfo where
  frame : Frame
  lineno : Nat
  indent : Nat
  iter : Nat
deriving DecidableEq, Repr

/-- The Logger's mutable state.  The active-loop stack is kept in Python list
order: the top of the stack (`active_loops[-1]`) is the LAST element.
The optional override directives (`self.values`) are modelled for the default
run configuration `values = []`, under which the `(lineno, time)` membership
test in `record_env` never succeeds and the override block is inert. -/
structure LoggerSt where
  lines : List (List Char)
  time : Nat
  prev_env : Option Env
  data : TimelineData
  active_loops : List LoopInfo
  preexisting_locals : Option (List (List Char))
  exception : Option ExcInfo
  quitted : Bool
deriving DecidableEq, Repr

/-- `Logger.__init__(lines)`. -/
def initLogger (lines : List (List Char)) : LoggerSt :=
  { lines := lines, time := 0, prev_env := none, data := [],
    active_loops := [], preexisting_locals := none, exception := none,
    quitted := false }

/-- `",".join(...)` over character lists. -/
def joinComma (parts : List (List Char)) : List Char :=
  List.intercalate ",".data parts

/-- `active_loops_iter_str`: comma-joined iteration counts, outermost first. -/
def active_loops_iter_str (stack : List LoopInfo) : List Char :=
  joinComma (stack.map fun l => (Nat.repr l.iter).data)

/-- `active_loops_id_str`: comma-joined header line numbers, outermost first. -/
def active_loops_id_str (stack : List LoopInfo) : List Char :=
  joinComma (stack.map fun l => (Nat.repr l.lineno).data)

/-- `create_begin_loop_dummy_env` for a given stack state: the marker carries
only the `begin_loop` tag and the `"#"`/`"$"` loop-context fields. -/
def beginLoopDummyEnv (stack : List LoopInfo) : Env :=
  { begin_loop := some (active_loops_iter_str stack),
    iterStr := active_loops_iter_str stack,
    idStr := active_loops_id_str stack }

/-- `create_end_loop_dummy_env` for a given stack state. -/
def endLoopDummyEnv (stack : List LoopInfo) : Env :=
  { end_loop := some (active_loops_iter_str stack),
    iterStr := active_loops_iter_str stack,
    idStr := active_loops_id_str stack }

/-- Loop body of `stmts_in_loop`: scan indices `l, l+1, ...` (`fuel` many as
dictated by `range(lineno+1, len(lines))`), skipping blank lines, stopping at
the first line whose indentation falls to or below the loop header's. -/
def stmtsInLoopAux (lines : List (List Char)) (loopIndent : Nat) : Nat → Nat → List Nat
  | _, 0 => []
  | l, fuel + 1 =>
    let line := lines.getD l []
    if strip line = [] then stmtsInLoopAux lines loopIndent (l + 1) fuel
    else if indent line ≤ loopIndent then []
    else l :: stmtsInLoopAux lines loopIndent (l + 1) fuel

/-- `stmts_in_loop(lineno)`: the body lines of the loop whose header is at
`lineno`. -/
def stmts_in_loop (lines : List (List Char)) (lineno : Nat) : List Nat :=
  stmtsInLoopAux lines (indent (lines.getD lineno [])) (lineno + 1)
    (lines.length - (lineno + 1))

/-- Append one copy of `env` to the timeline of every line in `ls`
(the body of `for l in self.stmts_in_loop(...): self.data_at(l).append(...)`). -/
def appendMarkerAll (d : TimelineData) (ls : List Nat) (env : Env) : TimelineData :=
  ls.foldl (fun d l => dataAppendEnv d (.norm l) env) d

/-- Replace the top of the active-loop stack (its last element). -/
def modifyTopLoop (f : LoopInfo → LoopInfo) (stack : List LoopInfo) : List LoopInfo :=
  match stack.getLast? with
  | none => stack
  | some top => stack.dropLast ++ [f top]

/-- One iteration of the `while len(self.active_loops) > 0` loop of
`record_loop_end`'s return branch: increment the top loop's iteration count,
append an end-loop marker to every line of its body, pop it. -/
def popTopLoop (s : LoggerSt) : LoggerSt :=
  match s.active_loops.getLast? with
  | none => s
  | some top =>
    let stack1 := modifyTopLoop (fun l => { l with iter := l.iter + 1 }) s.active_loops
    let data1 := appendMarkerAll s.data (stmts_in_loop s.lines top.lineno)
      (endLoopDummyEnv stack1)
    { s with active_loops := stack1.dropLast, data := data1 }

/-- The `while len(self.active_loops) > 0` loop itself; `fuel` is instantiated
with the stack depth, which bounds the iteration count exactly. -/
def popAllLoops : LoggerSt → Nat → LoggerSt
  | s, 0 => s
  | s, fuel + 1 =>
    match s.active_loops.getLast? with
    | none => s
    | some _ => popAllLoops (popTopLoop s) fuel

/-- `record_loop_end(frame, lineno)`. -/
def record_loop_end (s : LoggerSt) (frame : Frame) (lineno : Nat) : LoggerSt :=
  let curr_stmt := s.lines.getD lineno []
  match s.prev_env, s.active_loops.getLast? with
  | some pe, some top =>
    if top.frame.fid = frame.fid then
      let prev_lineno := remove_R ((pe.lineno).getD (.norm 0))
      let prev_stmt := s.lines.getD prev_lineno []
      let loop_indent := top.indent
      let curr_indent := indent curr_stmt
      let curr_frame_name := frame.name
      let prev_frame_name := ((pe.frame).getD frame).name
      if is_return_str prev_stmt ∧ curr_frame_name = prev_frame_name then
        popAllLoops s s.active_loops.length
      else if curr_indent ≤ loop_indent ∧ lineno ≠ top.lineno then
        let s1 := if is_break_str prev_stmt then
          { s with active_loops := modifyTopLoop (fun l => { l with iter := l.iter + 1 }) s.active_loops }
          else s
        -- the source reads self.active_loops[-1].lineno here, after the
        -- possible increment; the increment leaves lineno unchanged, so the
        -- matched top's lineno is the same value
        let data1 := appendMarkerAll s1.data (stmts_in_loop s1.lines top.lineno)
          (endLoopDummyEnv s1.active_loops)
        { s1 with data := data1, active_loops := s1.active_loops.dropLast }
      else s
    else s
  | _, _ => s

/-- `record_loop_begin(frame, lineno)`. -/
def record_loop_begin (s : LoggerSt) (frame : Frame) (lineno : Nat) : LoggerSt :=
  let curr_stmt := s.lines.getD lineno []
  if is_loop_str curr_stmt then
    match s.active_loops.getLast? with
    | some top =>
      if top.lineno = lineno then
        { s with active_loops := modifyTopLoop (fun l => { l with iter := l.iter + 1 }) s.active_loops }
      else
        let stack1 := s.active_loops ++ [⟨frame, lineno, indent curr_stmt, 0⟩]
        { s with
          active_loops := stack1,
          data := appendMarkerAll s.data (stmts_in_loop s.lines lineno) (beginLoopDummyEnv stack1) }
    | none =>
      let stack1 := s.active_loops ++ [⟨frame, lineno, indent curr_stmt, 0⟩]
      { s with
        active_loops := stack1,
        data := appendMarkerAll s.data (stmts_in_loop s.lines lineno) (beginLoopDummyEnv stack1) }
  else s

/-- `"<module>"`, `"<listcomp>"`, `"<dictcomp>"`. -/
def moduleName : List Char := "<module>".data

def listcompName : List Char := "<listcomp>".data

def dictcompName : List Char := "<dictcomp>".data

/-- `record_env(frame, lineno)`.  The step-budget check quits without
recording; otherwise a new Environment is built, stamped with the current
time, appended to the per-line timeline, and linked against the previous
Environment (whose stored copy in `self.data` is mutated through its alias,
located here by its unique time stamp). -/
def record_env (s : LoggerSt) (snap : FrameSnap) (lineno : LineNo) : LoggerSt :=
  if s.time ≥ 100 then { s with quitted := true }
  else
    let pre := (s.preexisting_locals).getD []
    let vars := snap.locals.filterMap fun kv =>
      if kv.1 ≠ magic_var_name ∧ (snap.frame.name ≠ moduleName ∨ ¬ kv.1 ∈ pre) then
        (compute_repr kv.2).map fun r => (kv.1, r)
      else none
    let env0 : Env :=
      { frame := some snap.frame, time := some s.time,
        iterStr := active_loops_iter_str s.active_loops,
        idStr := active_loops_id_str s.active_loops,
        vars := vars, lineno := some lineno }
    let env := match s.prev_env with
      | some pe => { env0 with prev_lineno := pe.lineno }
      | none => env0
    let data1 := dataAppendEnv s.data lineno env
    let data2 := match s.prev_env with
      | some pe => dataSetNextByTime data1 pe.time lineno
      | none => data1
    { s with time := s.time + 1, data := data2, prev_env := some env }

/-- `user_line(frame)`: capture pre-existing top-level names on the first
module-scope notification, filter comprehension frames and foreign files,
clear the pending exception, then run loop-end detection, environment
recording and loop-begin detection at the interpreter line minus one. -/
def user_line (s : LoggerSt) (snap : FrameSnap) (f_lineno : Nat) : LoggerSt :=
  let s :=
    if snap.frame.name = moduleName ∧ s.preexisting_locals = none then
      { s with preexisting_locals := some (snap.locals.map Prod.fst) }
    else s
  if snap.frame.name = listcompName ∨ snap.frame.name = dictcompName
      ∨ ¬ snap.frame.filenameIsString then s
  else
    let s := { s with exception := none }
    let adjusted := f_lineno - 1
    let s := record_loop_end s snap.frame adjusted
    let s := record_env s snap (.norm adjusted)
    record_loop_begin s snap.frame adjusted

/-- `user_exception(frame, e)`: store `e[1]`. -/
def user_exception (s : LoggerSt) (e : ExcInfo) : LoggerSt :=
  { s with exception := some e }

/-- An uncaught exception raised inside the tracer itself. -/
inductive TracerErr where
  | indexError
deriving DecidableEq, Repr

/-- `user_return(frame, rv)`.  After recording the return-variant
Environment, the textual return value (or a formatted error banner) is
attached to `self.data_at("R"+lineno)[-1]`; when the step budget suppressed
the recording and the return-variant key is fresh, that `[-1]` raises an
IndexError (the bare `data_at` call still inserts the empty key first).
Finally loop-end detection reruns for this frame. -/
def user_return (s : LoggerSt) (snap : FrameSnap) (f_lineno : Nat) (rvv : Value) :
    LoggerSt × Option TracerErr :=
  if snap.frame.name = listcompName ∨ snap.frame.name = dictcompName
      ∨ ¬ snap.frame.filenameIsString then (s, none)
  else
    let adjusted := f_lineno - 1
    let key : LineNo := .ret adjusted
    let s := record_env s snap key
    let isExc := s.exception.isSome
    let r : Option (List Char) :=
      match s.exception with
      | none => compute_repr rvv
      | some e =>
        some (add_html_escape (add_red_format
          (e.className ++ ": ".data ++ e.msg)))
    if r ≠ none ∧ (snap.frame.name ≠ moduleName ∨ s.exception ≠ none) then
      let s1 := { s with data := dataEnsureKey s.data key }
      match (dataAt s1.data key).getLast? with
      | none => (s1, some .indexError)
      | some _ =>
        let s2 := { s1 with data := dataModifyLast s1.data key fun e =>
          if isExc then { e with excThrown := r } else { e with rv := r } }
        (record_loop_end s2 snap.frame adjusted, none)
    else (record_loop_end s snap.frame adjusted, none)

/-! ## Driving the Logger: notification events -/

/-- One notification from the interpreter's debugging interface. -/
inductive Event where
  | line (snap : FrameSnap) (f_lineno : Nat)
  | exc (snap : FrameSnap) (e : ExcInfo)
  | ret (snap : FrameSnap) (f_lineno : Nat) (rvv : Value)
deriving DecidableEq, Repr

/-- Dispatch one event. -/
def stepEvent (s : LoggerSt) : Event → LoggerSt × Option TracerErr
  | .line snap ln => (user_line s snap ln, none)
  | .exc _ e => (user_exception s e, none)
  | .ret snap ln rvv => user_return s snap ln rvv

/-- Process events in order.  Once `set_quit` has been called, `bdb` raises
`BdbQuit` at the next dispatch (before any further `user_*` callback), so no
further event is delivered; an internal tracer error aborts the run with the
state accumulated so far. -/
def runEvents : LoggerSt → List Event → LoggerSt × Option TracerErr
  | s, [] => (s, none)
  | s, e :: rest =>
    if s.quitted then (s, none)
    else
      match stepEvent s e with
      | (s', none) => runEvents s' rest
      | (s', some err) => (s', some err)

/-- The run's terminal exception: either an exception inside the tracer, or
the target program's own uncaught exception. -/
inductive RunExc where
  | internal (e : TracerErr)
  | target (e : ExcInfo)
deriving DecidableEq, Repr

/-- `l.run(code)` inside `compute_runtime_data`'s `try`: the target produces
`events`; if it terminates normally but would end by raising, that exception
(`targetExc`) propagates out of `run`; `BdbQuit` after `set_quit` is caught
silently by `bdb` and suppresses everything after the cutoff. -/
def runLogger (lines : List (List Char)) (events : List Event)
    (targetExc : Option ExcInfo) : LoggerSt × Option RunExc :=
  let (s, ierr) := runEvents (initLogger lines) events
  match ierr with
  | some e => (s, some (.internal e))
  | none => if s.quitted then (s, none) else (s, targetExc.map .target)

/-! ## The Timeline Materializer (`adjust_to_next_time_step`, `remove_frame_data`) -/

/-- An uncaught Python exception raised while materializing: indexing the
line list with a string key (a return-variant `"R…"` line number reaches
`lines[env["lineno"]]` unconverted), indexing it out of range, or reading a
missing dict key. -/
inductive PyErr where
  | typeError
  | indexError
  | keyError
deriving DecidableEq, Repr

/-- `envs_by_time[t] = env`: dict insert-or-overwrite. -/
def timeInsert : List (Nat × Env) → Nat → Env → List (Nat × Env)
  | [], t, e => [(t, e)]
  | (k, v) :: rest, t, e =>
    if k = t then (k, e) :: rest else (k, v) :: timeInsert rest t e

/-- Dict lookup in the time index. -/
def timeLookup : List (Nat × Env) → Nat → Option Env
  | [], _ => none
  | (k, v) :: rest, t => if k = t then some v else timeLookup rest t

/-- The `time → Environment` index over every Environment that carries a
`"time"` field, built in iteration order. -/
def envs_by_time_of (d : TimelineData) : List (Nat × Env) :=
  d.foldl
    (fun m kv => kv.2.foldl
      (fun m e =>
        match e.time with
        | some t => timeInsert m t e
        | none => m) m) m₀
where m₀ : List (Nat × Env) := []

/-- The largest time present in the index (0 for an empty index); bounds the
scan loops. -/
def maxTimeKey (m : List (Nat × Env)) : Nat := m.foldl (fun a kv => max a kv.1) 0

/-- `lines[n]` for an integer index (IndexError when out of range; the traced
sources never produce negative adjusted line numbers). -/
def pyLinesIndex (lines : List (List Char)) (n : Nat) : Except PyErr (List Char) :=
  if h : n < lines.length then .ok (lines.get ⟨n, h⟩) else .error .indexError

/-- `lines[env["lineno"]]` (line 424 of run.py): a return-variant line number
is a string, so Python raises a TypeError; a missing key raises KeyError. -/
def currStmtLookup (lines : List (List Char)) : Option LineNo → Except PyErr (List Char)
  | none => .error .keyError
  | some (.ret _) => .error .typeError
  | some (.norm n) => pyLinesIndex lines n

/-- `lines[remove_R(next_env["lineno"])]` (line 425 of run.py). -/
def nextStmtLookup (lines : List (List Char)) : Option LineNo → Except PyErr (List Char)
  | none => .error .keyError
  | some l => pyLinesIndex lines (remove_R l)

/-- `"frame" in env and "frame" in next_env and env["frame"] is next_env["frame"]`. -/
def frameIs : Option Frame → Option Frame → Bool
  | some a, some b => a.fid = b.fid
  | _, _ => false

/-- The forward-step condition of run.py line 426: the successor carries an
error banner, or the current statement is not a loop header, or the
successor's line is indented strictly deeper. -/
def forwardStepCond (nextEnv : Env) (curr_stmt next_stmt : List Char) : Bool :=
  nextEnv.excThrown.isSome || !is_loop_str curr_stmt
    || indent next_stmt > indent curr_stmt

/-- The `while next_time in envs_by_time` loop of `adjust_to_next_time_step`,
verbatim: scan consecutive times while they are present in the index; at the
FIRST same-frame Environment, append it exactly when the forward-step
condition holds, and break either way.  `fuel` is instantiated with
`maxTimeKey m + 2`, which outlasts every run of consecutively present times. -/
def scanNextCode (m : List (Nat × Env)) (lines : List (List Char)) (env : Env) :
    Nat → Nat → Except PyErr (Option Env)
  | _, 0 => .ok none
  | t, fuel + 1 =>
    match timeLookup m t with
    | none => .ok none
    | some ne =>
      if frameIs env.frame ne.frame then
        match currStmtLookup lines env.lineno with
        | .error e => .error e
        | .ok cs =>
          match nextStmtLookup lines ne.lineno with
          | .error e => .error e
          | .ok ns => .ok (if forwardStepCond ne cs ns then some ne else none)
      else scanNextCode m lines env (t + 1) fuel

/-- The per-line pass of `adjust_to_next_time_step`: markers pass through
unchanged; a time-stamped Environment contributes its scan result; anything
else is dropped. -/
def adjustList (m : List (Nat × Env)) (lines : List (List Char)) (fuel : Nat) :
    List Env → Except PyErr (List Env)
  | [] => .ok []
  | e :: es =>
    if e.begin_loop.isSome then (adjustList m lines fuel es).map (e :: ·)
    else if e.end_loop.isSome then (adjustList m lines fuel es).map (e :: ·)
    else
      match e.time with
      | some t =>
        match scanNextCode m lines e (t + 1) fuel with
        | .error err => .error err
        | .ok opt => (adjustList m lines fuel es).map (opt.toList ++ ·)
      | none => adjustList m lines fuel es

/-- Iterate the per-line pass over every key of the timeline, keeping the
key order. -/
def adjustData (m : List (Nat × Env)) (lines : List (List Char)) (fuel : Nat) :
    TimelineData → Except PyErr TimelineData
  | [] => .ok []
  | (k, envs) :: rest =>
    match adjustList m lines fuel envs with
    | .error e => .error e
    | .ok ne => (adjustData m lines fuel rest).map ((k, ne) :: ·)

/-- `adjust_to_next_time_step(data, lines)`. -/
def adjust_to_next_time_step (d : TimelineData) (lines : List (List Char)) :
    Except PyErr TimelineData :=
  let m := envs_by_time_of d
  adjustData m lines (maxTimeKey m + 2) d

/-- `remove_frame_data(data)`: strip the frame-identity field everywhere. -/
def remove_frame_data (d : TimelineData) : TimelineData :=
  d.map fun kv => (kv.1, kv.2.map fun e => { e with frame := none })

/-! ## Spec-side variants of the materializer, for comparison -/

/-- Find the FIRST same-frame Environment along consecutively indexed times
(the search stops at the first time absent from the index). -/
def firstSameFrameScan (m : List (Nat × Env)) (fr : Option Frame) :
    Nat → Nat → Option Env
  | _, 0 => none
  | t, fuel + 1 =>
    match timeLookup m t with
    | none => none
    | some ne =>
      if frameIs fr ne.frame then some ne
      else firstSameFrameScan m fr (t + 1) fuel

/-- Evaluate the forward-step condition of a candidate successor, with the
same lookup (and error) behaviour as the source. -/
def forwardStepCheck (lines : List (List Char)) (env ne : Env) :
    Except PyErr Bool :=
  match currStmtLookup lines env.lineno with
  | .error e => .error e
  | .ok cs =>
    match nextStmtLookup lines ne.lineno with
    | .error e => .error e
    | .ok ns => .ok (forwardStepCond ne cs ns)

/-- The AMENDED successor rule: take the first same-frame Environment reached
through consecutively indexed times, and append it exactly when it satisfies
the forward-step condition; append nothing when it fails the condition or
when no same-frame Environment is reached. -/
def amendedNext (m : List (Nat × Env)) (lines : List (List Char)) (env : Env)
    (t fuel : Nat) : Except PyErr (Option Env) :=
  match firstSameFrameScan m env.frame t fuel with
  | none => .ok none
  | some ne =>
    match forwardStepCheck lines env ne with
    | .error e => .error e
    | .ok b => .ok (if b then some ne else none)

/-- Per-line pass with the amended successor rule. -/
def adjustListAmended (m : List (Nat × Env)) (lines : List (List Char))
    (fuel : Nat) : List Env → Except PyErr (List Env)
  | [] => .ok []
  | e :: es =>
    if e.begin_loop.isSome then (adjustListAmended m lines fuel es).map (e :: ·)
    else if e.end_loop.isSome then (adjustListAmended m lines fuel es).map (e :: ·)
    else
      match e.time with
      | some t =>
        match amendedNext m lines e (t + 1) fuel with
        | .error err => .error err
        | .ok opt => (adjustListAmended m lines fuel es).map (opt.toList ++ ·)
      | none => adjustListAmended m lines fuel es

/-- All keys, amended rule. -/
def adjustDataAmended (m : List (Nat × Env)) (lines : List (List Char))
    (fuel : Nat) : TimelineData → Except PyErr TimelineData
  | [] => .ok []
  | (k, envs) :: rest =>
    match adjustListAmended m lines fuel envs with
    | .error e => .error e
    | .ok ne => (adjustDataAmended m lines fuel rest).map ((k, ne) :: ·)

/-- The materializer under the amended successor rule. -/
def adjustAmended (d : TimelineData) (lines : List (List Char)) :
    Except PyErr TimelineData :=
  let m := envs_by_time_of d
  adjustDataAmended m lines (maxTimeKey m + 2) d

/-- The successor rule AS CLAIM C1 STATES IT: scan increasing time values in
the global index (skipping times not present) until a successor that is BOTH
same-frame AND forward-step-qualifying is found, or the index is exhausted;
append nothing in the latter case. -/
def claimScan (m : List (Nat × Env)) (lines : List (List Char)) (env : Env) :
    Nat → Nat → Except PyErr (Option Env)
  | _, 0 => .ok none
  | t, fuel + 1 =>
    if t > maxTimeKey m then .ok none
    else
      match timeLookup m t with
      | none => claimScan m lines env (t + 1) fuel
      | some ne =>
        if frameIs env.frame ne.frame then
          match forwardStepCheck lines env ne with
          | .error e => .error e
          | .ok b =>
            if b then .ok (some ne)
            else claimScan m lines env (t + 1) fuel
        else claimScan m lines env (t + 1) fuel

/-- Per-line pass with the claim's successor rule. -/
def adjustListClaim (m : List (Nat × Env)) (lines : List (List Char))
    (fuel : Nat) : List Env → Except PyErr (List Env)
  | [] => .ok []
  | e :: es =>
    if e.begin_loop.isSome then (adjustListClaim m lines fuel es).map (e :: ·)
    else if e.end_loop.isSome then (adjustListClaim m lines fuel es).map (e :: ·)
    else
      match e.time with
      | some t =>
        match claimScan m lines e (t + 1) fuel with
        | .error err => .error err
        | .ok opt => (adjustListClaim m lines fuel es).map (opt.toList ++ ·)
      | none => adjustListClaim m lines fuel es

/-- All keys, claim rule. -/
def adjustDataClaim (m : List (Nat × Env)) (lines : List (List Char))
    (fuel : Nat) : TimelineData → Except PyErr TimelineData
  | [] => .ok []
  | (k, envs) :: rest =>
    match adjustListClaim m lines fuel envs with
    | .error e => .error e
    | .ok ne => (adjustDataClaim m lines fuel rest).map ((k, ne) :: ·)

/-- The materializer as claim C1 describes it. -/
def adjustClaimVersion (d : TimelineData) (lines : List (List Char)) :
    Except PyErr TimelineData :=
  let m := envs_by_time_of d
  adjustDataClaim m lines (maxTimeKey m + 2) d

/-- A timeline consisting solely of loop-begin / loop-end markers. -/
abbrev AllMarkers (d : TimelineData) : Prop :=
  ∀ kv ∈ d, ∀ e ∈ kv.2, e.begin_loop.isSome ∨ e.end_loop.isSome

/-! ## The Write-Set Analyzer (`WriteCollector`, `compute_writes`) -/

/-- An expression context (`ast.Load` / `ast.Store` / `ast.Del`). -/
inductive Ctx where
  | load
  | store
  | del
deriving DecidableEq, Repr

/-- A comparison operator node (`ast.Eq`, `ast.NotEq`, ...). -/
inductive CmpOp where
  | eq
  | notEq
  | lt
  | gt
deriving DecidableEq, Repr

mutual
/-- The fragment of the Python abstract syntax tree the analyzer and the
test harness traverse.  Each constructor mirrors one `ast` node class with
its fields in source order. -/
inductive Node where
  | nName (lineno : Nat) (ctx : Ctx) (id : List Char)
  | nSubscript (lineno : Nat) (value : Node) (slice : Node) (ctx : Ctx)
  | nAttribute (lineno : Nat) (value : Node) (attr : List Char) (ctx : Ctx)
  | nTuple (lineno : Nat) (elts : NodeList) (ctx : Ctx)
  | nCall (lineno : Nat) (func : Node) (args : NodeList)
  | nCompare (lineno : Nat) (left : Node) (ops : List CmpOp) (comparators : NodeList)
  | nConstant (lineno : Nat) (val : List Char)
  | nAssign (lineno : Nat) (targets : NodeList) (value : Node)
  | nExprStmt (lineno : Nat) (value : Node)
  | nModule (body : NodeList)

/-- A list of AST nodes (kept as a companion inductive so that all
recursions over the tree are structural). -/
inductive NodeList where
  | nil
  | cons (hd : Node) (tl : NodeList)
end

/-- `len` of a node list. -/
def NodeList.length : NodeList → Nat
  | .nil => 0
  | .cons _ tl => 1 + tl.length

/-- `find_id(node)`: `node.id` if the node has an `id` attribute (only
`ast.Name` does), else recurse into `node.value` if it has one
(`Subscript`, `Attribute`, `Assign`, `Expr` do; `Constant.value` is a bare
constant, not an AST node, so the recursion bottoms out as `None` there),
else `None`. -/
def find_id : Node → Option (List Char)
  | .nName _ _ id => some id
  | .nSubscript _ v _ _ => find_id v
  | .nAttribute _ v _ _ => find_id v
  | .nAssign _ _ v => find_id v
  | .nExprStmt _ v => find_id v
  | .nConstant _ _ => none
  | .nTuple _ _ _ => none
  | .nCall _ _ _ => none
  | .nCompare _ _ _ _ => none
  | .nModule _ => none

/-- The write-set under construction: an insertion-ordered dict from
0-indexed line to the identifiers assigned there. -/
abbrev WriteData := List (Nat × List (List Char))

/-- `data_at(l).append(id)` on the write-set dict. -/
def wdataAppend : WriteData → Nat → List Char → WriteData
  | [], l, id => [(l, [id])]
  | (k, v) :: rest, l, id =>
    if k = l then (k, v ++ [id]) :: rest else (k, v) :: wdataAppend rest l id

/-- The `WriteCollector` visitor state: collected writes plus the warnings it
prints. -/
structure WCState where
  data : WriteData := []
  warnings : List (List Char) := []
deriving DecidableEq, Repr

/-- `record_write(lineno, id)`: record at the 1-based line minus one, unless
the identifier is the normalizer's marker name. -/
def record_write (st : WCState) (lineno : Nat) (id : List Char) : WCState :=
  if id ≠ magic_var_name then { st with data := wdataAppend st.data (lineno - 1) id }
  else st

/-- The warning printed when `find_id` fails inside `visit_Subscript`. -/
def subscriptWarning : List Char := "Warning: did not find id in subscript".data

mutual
/-- `NodeVisitor.visit` with the `WriteCollector` dispatch table: `Name` and
`Subscript` have dedicated handlers (which do NOT recurse into children);
every other node kind falls through to `generic_visit`, which visits the
child nodes in field order.  In particular an `ast.Attribute` target has no
handler, so only its `value` child (a Load-context expression) is visited. -/
def wcVisit : Node → WCState → WCState
  | .nName ln ctx id, st =>
    if ctx = Ctx.store then record_write st ln id else st
  | .nSubscript ln v sl ctx, st =>
    if ctx = Ctx.store then
      match find_id (.nSubscript ln v sl ctx) with
      | none => { st with warnings := st.warnings ++ [subscriptWarning] }
      | some id => record_write st ln id
    else st
  | .nAttribute _ v _ _, st => wcVisit v st
  | .nTuple _ elts _, st => wcVisitList elts st
  | .nCall _ f args, st => wcVisitList args (wcVisit f st)
  | .nCompare _ left _ comps, st => wcVisitList comps (wcVisit left st)
  | .nConstant _ _, st => st
  | .nAssign _ tgts v, st => wcVisit v (wcVisitList tgts st)
  | .nExprStmt _ v, st => wcVisit v st
  | .nModule body, st => wcVisitList body st

/-- `generic_visit` over a list of children, left to right. -/
def wcVisitList : NodeList → WCState → WCState
  | .nil, st => st
  | .cons hd tl, st => wcVisitList tl (wcVisit hd st)
end

/-- Run the `WriteCollector` over a parsed tree. -/
def collectWrites (root : Node) : WCState := wcVisit root {}

/-- The parser oracle: `ast.parse` applied to the concatenation of the line
list, returning either the tree or the 1-based `e.lineno` of the syntax
error.  `ast.parse` is the Python standard library, external to this
repository. -/
abbrev ParseOracle := List (List Char) → Except Nat Node

/-- The inner `while lineno >= 0` loop of `compute_writes`: blank (set to a
bare newline) EVERY line containing the normalizer's marker at an index
strictly below `k`, reporting whether any line changed.  Scans top index
first, exactly like the Python loop. -/
def blankLoop (lines : List (List Char)) : Nat → List (List Char) × Bool
  | 0 => (lines, false)
  | k + 1 =>
    let step :=
      if containsSub magic_var_name (lines.getD k []) then
        (lines.set k "\n".data, true)
      else (lines, false)
    let rest := blankLoop step.1 k
    (rest.1, step.2 || rest.2)

/-- Number of lines still containing the marker; a strict upper bound on the
number of reparse attempts, used as fuel for the retry loop. -/
def magicCount (lines : List (List Char)) : Nat :=
  lines.countP fun l => containsSub magic_var_name l

/-- The `while not done` retry loop of `compute_writes`: parse; on a syntax
error at 1-based line `ln`, blank every marker line at index `ln - 1` or
below and retry; when no line changed, re-raise the parse error. -/
def computeWritesLoop (P : ParseOracle) : List (List Char) → Nat → Except Nat Node
  | lines, 0 => P lines
  | lines, fuel + 1 =>
    match P lines with
    | .ok root => .ok root
    | .error ln =>
      let b := blankLoop lines ln
      if b.2 then computeWritesLoop P b.1 fuel
      else .error ln

/-- `compute_writes(lines)`: the retry loop, then on success the
`WriteCollector` walk; on terminal failure the writes dict stays empty and
the exception is returned alongside. -/
def compute_writes (P : ParseOracle) (lines : List (List Char)) :
    WriteData × Option Nat :=
  match computeWritesLoop P lines (magicCount lines + 1) with
  | .ok root => ((collectWrites root).data, none)
  | .error ln => ([], some ln)

/-- The retry loop AS CLAIM C4 STATES IT: locate the single offending line
by the parser's reported position, blank THAT line, and retry; fail when the
offending line is not a removable no-op line. -/
def computeWritesSingleLoop (P : ParseOracle) : List (List Char) → Nat → Except Nat Node
  | lines, 0 => P lines
  | lines, fuel + 1 =>
    match P lines with
    | .ok root => .ok root
    | .error ln =>
      if containsSub magic_var_name (lines.getD (ln - 1) []) then
        computeWritesSingleLoop P (lines.set (ln - 1) "\n".data) fuel
      else .error ln

/-- `compute_writes` as claim C4 describes it. -/
def computeWritesSingle (P : ParseOracle) (lines : List (List Char)) :
    WriteData × Option Nat :=
  match computeWritesSingleLoop P lines (magicCount lines + 1) with
  | .ok root => ((collectWrites root).data, none)
  | .error ln => ([], some ln)

/-! ## The Test Assertion Harness (`parse_test_line`, `TestLine`, the test
loops of `compute_runtime_data`) -/

/-- `hd` of a node list with a default (the real parser guarantees
`len(comparators) == len(ops)`, so the default is never consulted for trees
it produces). -/
def NodeList.headD (l : NodeList) (dflt : Node) : Node :=
  match l with
  | .nil => dflt
  | .cons hd _ => hd

/-- The `ast.parse` oracle for single test lines: either the tree or the
`SyntaxError`'s message. -/
abbrev AstOracle := List Char → Except (List Char) Node

/-- The session's expression-evaluation capability (`l.runeval` on a
compiled expression): the value, or the exception the evaluation raised.
`ast.Expression` wrappers are modelled as the wrapped node itself. -/
abbrev EvalOracle := Node → Except ExcInfo Value

/-- `parse_test_line(line)`: one statement; either a bare call (actual-only)
or `call == expr` (actual vs. expected); anything else is an error message. -/
def parse_test_line (astO : AstOracle) (line : List Char) :
    Except (List Char) (Node × Option Node) :=
  match astO line with
  | .error msg => .error msg
  | .ok tree =>
    match tree with
    | .nModule body =>
      match body with
      | .cons expr .nil =>
        match expr with
        | .nExprStmt _ v =>
          match v with
          | .nCompare _ left ops comps =>
            if ops = [CmpOp.eq] then
              match left with
              | .nCall lc f args =>
                .ok (.nCall lc f args, some (comps.headD (.nConstant 0 [])))
              | _ => .error "Left-hand side of == must be a function call".data
            else .error "Tests may only use a single == comparison".data
          | .nCall lc f args => .ok (.nCall lc f args, none)
          | _ => .error "Test line must be a function call or == comparison".data
        | _ => .error "Internal error: expected ast.Expr".data
      | _ => .error "Test line may only contain a single statement".data
    | _ => .error "Internal error: expected ast.Module".data

/-- The message of the `SyntaxError` raised (and then printed) by
`TestLine.__init__` for a malformed test comment. -/
def testLineReport (msg : List Char) (lineno : Nat) (text : List Char) : List Char :=
  msg ++ " (line ".data ++ (Nat.repr lineno).data ++ "): ".data ++ text

/-- The first loop of `compute_runtime_data`'s test section: build the
`TestLine` list, printing (and skipping) every comment whose construction
raises. -/
def testsOf (astO : AstOracle) (comments : List (List Char × Nat)) :
    List (Node × Option Node) × List (List Char) :=
  comments.foldl
    (fun acc p =>
      match parse_test_line astO p.1 with
      | .ok t => (acc.1 ++ [t], acc.2)
      | .error msg => (acc.1, acc.2 ++ [testLineReport msg p.2 p.1]))
    ([], [])

/-- One recorded test result: `(actual_value, expected_value, passed)`,
the latter two `None` for an actual-only assertion. -/
abbrev TestTriple := Value × Option Value × Option Bool

/-- The second loop of `compute_runtime_data`'s test section: evaluate each
parsed assertion, printing (and skipping) any whose evaluation raises, and
record the result triple; `passed` is Python `==` on the two values. -/
def runTests (evalO : EvalOracle) (tests : List (Node × Option Node)) :
    List TestTriple × List (List Char) :=
  tests.foldl
    (fun acc t =>
      match evalO t.1 with
      | .error e => (acc.1, acc.2 ++ [e.msg])
      | .ok a =>
        match t.2 with
        | none => (acc.1 ++ [(a, none, none)], acc.2)
        | some ex =>
          match evalO ex with
          | .error e => (acc.1, acc.2 ++ [e.msg])
          | .ok b => (acc.1 ++ [(a, some b, some (a == b))], acc.2))
    ([], [])

/-- The recorded triple for one comment as §4.4 of the spec words it: absent
for a malformed line or an evaluation failure, otherwise
`(actual, expected-or-absent, passed-or-absent)` with `passed` the
structural equality of actual and expected when an expectation is present. -/
def specTriple (astO : AstOracle) (evalO : EvalOracle) (text : List Char) :
    Option TestTriple :=
  match parse_test_line astO text with
  | .error _ => none
  | .ok t =>
    match evalO t.1 with
    | .error _ => none
    | .ok a =>
      match t.2 with
      | none => some (a, none, none)
      | some ex =>
        match evalO ex with
        | .error _ => none
        | .ok b => some (a, some b, some (a == b))

/-- The report a malformed comment contributes, per the spec: it is reported
and skipped. -/
def specParseReport (astO : AstOracle) (p : List Char × Nat) : Option (List Char) :=
  match parse_test_line astO p.1 with
  | .error msg => some (testLineReport msg p.2 p.1)
  | .ok _ => none

/-- The report(s) a parsed assertion contributes when its evaluation throws. -/
def specEvalReport (evalO : EvalOracle) (t : Node × Option Node) : Option (List Char) :=
  match evalO t.1 with
  | .error e => some e.msg
  | .ok _ =>
    match t.2 with
    | none => none
    | some ex =>
      match evalO ex with
      | .error e => some e.msg
      | .ok _ => none

/-! ## The driving routine (`compute_runtime_data`, `main`) -/

/-- `compute_runtime_data(lines, values, test_comments)`: run the Logger over
the target's notification events, build and evaluate the test assertions
(the local `test_results` list is computed and then discarded by the Python
code), materialize the timeline, strip frame identities, and return the
timeline with the run's exception.  The materializer runs OUTSIDE the
`try`, so an exception it raises propagates out of this routine. -/
def compute_runtime_data (lines : List (List Char)) (events : List Event)
    (targetExc : Option ExcInfo) (astO : AstOracle) (evalO : EvalOracle)
    (test_comments : List (List Char × Nat)) :
    Except PyErr (TimelineData × Option RunExc) :=
  if lines.length = 0 then .ok ([], none)
  else
    let run := runLogger lines events targetExc
    let tests := testsOf astO test_comments
    let _test_results := runTests evalO tests.1
    match adjust_to_next_time_step run.1.data lines with
    | .error e => .error e
    | .ok d => .ok (remove_frame_data d, run.2)

/-- `main(file)` up to the point where the triple
`(return_code, writes, run_time_data)` is written out: statusCode 1 with no
trace on a static-analysis failure, else statusCode 2 when the run raised,
else statusCode 0.  An exception escaping `compute_runtime_data` (the
materializer's) aborts `main` before anything is written. -/
def main_logic (P : ParseOracle) (astO : AstOracle) (evalO : EvalOracle)
    (lines : List (List Char)) (test_comments : List (List Char × Nat))
    (events : List Event) (targetExc : Option ExcInfo) :
    Except PyErr (Nat × WriteData × TimelineData) :=
  let w := compute_writes P lines
  match w.2 with
  | some _ => .ok (1, w.1, [])
  | none =>
    match compute_runtime_data lines events targetExc astO evalO test_comments with
    | .error e => .error e
    | .ok dr => .ok ((if dr.2.isSome then 2 else 0), w.1, dr.1)

/-! ## Formalized claim statements that the code refutes -/

/-- Claim C7's final conjunct: the driving routine always produces the
triple `(statusCode, writeSet, timeline)`. -/
def claimC7AlwaysTriple : Prop :=
  ∀ (P : ParseOracle) (astO : AstOracle) (evalO : EvalOracle)
    (lines : List (List Char)) (test_comments : List (List Char × Nat))
    (events : List Event) (targetExc : Option ExcInfo),
    ∃ t, main_logic P astO evalO lines test_comments events targetExc = .ok t

/-- An assignment target that is a Store-context subscript or attribute
node. -/
def IsStoreSubAttr : Node → Prop
  | .nSubscript _ _ _ ctx => ctx = Ctx.store
  | .nAttribute _ _ _ ctx => ctx = Ctx.store
  | _ => False

/-- The 1-based source line of a node. -/
def nodeLineno : Node → Nat
  | .nName ln _ _ => ln
  | .nSubscript ln _ _ _ => ln
  | .nAttribute ln _ _ _ => ln
  | .nTuple ln _ _ => ln
  | .nCall ln _ _ => ln
  | .nCompare ln _ _ _ => ln
  | .nConstant ln _ => ln
  | .nAssign ln _ _ => ln
  | .nExprStmt ln _ => ln
  | .nModule _ => 0

/-- Write-set lookup with default. -/
def wdAt (d : WriteData) (l : Nat) : List (List Char) :=
  match d with
  | [] => []
  | (k, v) :: rest => if k = l then v else wdAt rest l

/-- Claim C5 as stated: for EVERY assignment whose target is a subscript or
attribute chain with root identifier `id`, the analyzer records `id` at the
target's 1-based line minus one. -/
def claimC5SubAttrRecorded : Prop :=
  ∀ (t rhs : Node) (ln : Nat) (id : List Char),
    IsStoreSubAttr t → find_id t = some id → id ≠ magic_var_name →
    id ∈ wdAt (collectWrites (.nModule (.cons (.nAssign ln (.cons t .nil) rhs) .nil))).data
      (nodeLineno t - 1)

/-! ## Spec-side presentation of the return-branch pop of `record_loop_end` -/

/-- Increment a loop's iteration count. -/
def incLoop (l : LoopInfo) : LoopInfo := { l with iter := l.iter + 1 }

/-- For a stack given top-first, the successive states of the active-loop
stack (in Python order, bottom first) at each pop of the return branch: at
every step the top loop's iteration count has just been incremented — once,
and exactly once, per popped loop. -/
def popStacks : List LoopInfo → List (List LoopInfo)
  | [] => []
  | top :: rest => (rest.reverse ++ [incLoop top]) :: popStacks rest

/-- Fold the end-loop markers of successive pops into the timeline: for each
pop, one marker (carrying only loop-context fields) is appended to the
timeline of every line inside the popped loop (the stack's top). -/
def popMarkersFold (lines : List (List Char)) (d : TimelineData)
    (stks : List (List LoopInfo)) : TimelineData :=
  stks.foldl
    (fun d stk =>
      match stk.getLast? with
      | none => d
      | some lp => appendMarkerAll d (stmts_in_loop lines lp.lineno) (endLoopDummyEnv stk))
    d

/-- The markers a given line receives from the successive pops, in pop
order: one copy per popped loop whose body contains the line. -/
def poppedEndMarkers (lines : List (List Char)) (stks : List (List LoopInfo))
    (l : LineNo) : List Env :=
  (stks.map fun stk =>
    match stk.getLast? with
    | none => []
    | some lp =>
      match l with
      | .norm n => List.replicate ((stmts_in_loop lines lp.lineno).count n) (endLoopDummyEnv stk)
      | .ret _ => []).flatten

/-- All time stamps of recorded Environments, in timeline storage order. -/
def dataStamps (d : TimelineData) : List Nat :=
  (d.map fun kv => kv.2.filterMap Env.time).flatten

/-! ## Concrete scenarios -/

/-- A module-level frame. -/
def modFrame : Frame := ⟨0, "<module>".data, true⟩

/-- A frame executing a function named `f`. -/
def fFrame : Frame := ⟨1, "f".data, true⟩

/-- A frame executing a generator named `g`. -/
def gFrame : Frame := ⟨2, "g".data, true⟩

/-- Two consecutive top-level `for` loops: the normalized source of
`for i in range(1): x = 1` / `for j in range(1): y = 2`. -/
def twoLoopLines : List (List Char) :=
  ["for i in range(1):\n".data, "    x = 1\n".data,
   "for j in range(1):\n".data, "    y = 2\n".data]

/-- A raw timeline fragment of `twoLoopLines`: the first loop's header on
its exhausted final visit (time 2), then the second loop's header (time 3)
and body (time 4), all on the module frame. -/
def twoLoopData : TimelineData :=
  [(.norm 0, [{ frame := some modFrame, time := some 2, lineno := some (.norm 0) }]),
   (.norm 2, [{ frame := some modFrame, time := some 3, lineno := some (.norm 2) }]),
   (.norm 3, [{ frame := some modFrame, time := some 4, lineno := some (.norm 3) }])]

/-- Two consecutive plain statements. -/
def twoStmtLines : List (List Char) := ["x = 1\n".data, "y = 2\n".data]

/-- The raw timeline of `twoStmtLines`: one recording per line. -/
def twoStmtData : TimelineData :=
  [(.norm 0, [{ frame := some modFrame, time := some 0, lineno := some (.norm 0) }]),
   (.norm 1, [{ frame := some modFrame, time := some 1, lineno := some (.norm 1) }])]

/-- A marker-only timeline: one begin-loop and one end-loop marker. -/
def markerOnlyData : TimelineData :=
  [(.norm 1, [beginLoopDummyEnv [⟨modFrame, 0, 0, 0⟩], endLoopDummyEnv [⟨modFrame, 0, 0, 2⟩]])]

/-- The normalized source for the step-budget scenario: a function `f` whose
body is a single return, then a top-level statement. -/
def budgetLines : List (List Char) :=
  ["def f():\n".data, "    return 1\n".data, "x = 1\n".data]

/-- A notification trace whose 100th recording is the body line of `f` and
whose next notification is `f`'s return: 99 top-level statement
notifications, then `f`'s body line, then `f`'s return. -/
def budgetEvents : List Event :=
  List.replicate 99 (Event.line ⟨modFrame, []⟩ 3)
    ++ [Event.line ⟨fFrame, []⟩ 2, Event.ret ⟨fFrame, []⟩ 2 (Value.other "1".data)]

/-- The normalized source for the generator scenario: a generator `g` driven
by a top-level `for` loop. -/
def genLines : List (List Char) :=
  ["def g():\n".data, "    yield 1\n".data, "for v in g():\n".data,
   "    x = v\n".data]

/-- The notification trace of the generator scenario: `g`'s frame yields (a
return notification) and later resumes, so a later Environment shares the
generator's frame with the return-variant Environment. -/
def genEvents : List Event :=
  [ .line ⟨modFrame, []⟩ 3,
    .line ⟨gFrame, []⟩ 2,
    .ret ⟨gFrame, []⟩ 2 (Value.other "1".data),
    .line ⟨modFrame, [("v".data, .other "1".data)]⟩ 4,
    .line ⟨gFrame, []⟩ 2 ]

/-- Normalized lines for the write-set retry scenario: two injected no-op
lines followed by a statement. -/
def retryLines : List (List Char) :=
  ["__run_py__ = 0\n".data, "    __run_py__ = 0\n".data, "x = 1\n".data]

/-- `retryLines` after the code's blanking pass (both marker lines at or
below the reported position are blanked). -/
def retryLinesBothBlank : List (List Char) :=
  ["\n".data, "\n".data, "x = 1\n".data]

/-- `retryLines` after blanking only the single reported line. -/
def retryLinesOneBlank : List (List Char) :=
  ["__run_py__ = 0\n".data, "\n".data, "x = 1\n".data]

/-- The tree of `x = 1` at source line 3. -/
def xAssignTree : Node :=
  .nModule (.cons (.nAssign 3 (.cons (.nName 3 Ctx.store "x".data) .nil)
    (.nConstant 3 "1".data)) .nil)

/-- A parser oracle for the retry scenario: the original lines fail at
1-based line 2 (the indented no-op is invalid in its context); with only the
reported line blanked they still fail at line 2 (the earlier stray no-op
still offends); with both marker lines blanked the parse succeeds. -/
def retryOracle : ParseOracle := fun lines =>
  if lines = retryLinesBothBlank then .ok xAssignTree
  else .error 2

/-- An assignment whose target is an attribute chain: `a.b = 1`. -/
def attrAssignTree : Node :=
  .nAssign 1 (.cons (.nAttribute 1 (.nName 1 Ctx.load "a".data) "b".data Ctx.store) .nil)
    (.nConstant 1 "1".data)

/-- A subscript-target assignment used as a witness: `a.b[0] = 1`. -/
def subAttrAssignTree : Node :=
  .nAssign 2 (.cons (.nSubscript 2 (.nAttribute 2 (.nName 2 Ctx.load "a".data) "b".data Ctx.load)
    (.nConstant 2 "0".data) Ctx.store) .nil) (.nConstant 2 "1".data)

/-- A parser oracle that accepts everything as an empty module (the
write-set pass then finds nothing to record). -/
def emptyModuleOracle : ParseOracle := fun _ => .ok (.nModule .nil)

/-- The materializer's output on `twoStmtData`: line 0's recording is
replaced by its successor (line 1's recording), which itself has no
successor. -/
def materializedTwoStmt : TimelineData :=
  [(.norm 0, [{ frame := some modFrame, time := some 1, lineno := some (.norm 1) }]),
   (.norm 1, [])]

/-- A test-line parser oracle for scenarios without test comments. -/
def noAst : AstOracle := fun _ => .error "unused".data

/-- An evaluation oracle for scenarios without test comments. -/
def noEval : EvalOracle := fun _ => .error ⟨"unused".data, "unused".data⟩

/-- The status code of a completed driving-routine run, `none` when the run
aborted with an uncaught exception. -/
def statusOf (r : Except PyErr (Nat × WriteData × TimelineData)) : Option Nat :=
  match r with
  | .ok t => some t.1
  | .error _ => none

/-- The triple one already-parsed assertion yields, per the spec: absent when
either evaluation throws, otherwise actual / expected-or-absent /
passed-or-absent. -/
def specRunTriple (evalO : EvalOracle) (t : Node × Option Node) : Option TestTriple :=
  match evalO t.1 with
  | .error _ => none
  | .ok a =>
    match t.2 with
    | none => some (a, none, none)
    | some ex =>
      match evalO ex with
      | .error _ => none
      | .ok b => some (a, some b, some (a == b))

/-- Time stamps are dense: every recorded stamp below the counter occurs
exactly once, and nothing at or above the counter occurs at all. -/
def StampInv (s : LoggerSt) : Prop :=
  ∀ t : Nat, (dataStamps s.data).count t = if t < s.time then 1 else 0

/-- The normalized source of scenario B: a `return` inside a `for` loop
inside a function. -/
def c2Lines : List (List Char) :=
  ["def f():\n".data, "    for i in range(3):\n".data,
   "        if i > 1:\n".data, "            return i\n".data,
   "x = f()\n".data]

/-- The Logger's state just after recording `f`'s return-variant Environment
(time 5, line `R3`), with the loop at line 1 still active on `f`'s frame:
the state on which `user_return` reruns loop-end detection. -/
def c2St : LoggerSt :=
  { lines := c2Lines,
    time := 6,
    prev_env := some { frame := some fFrame, time := some 5, lineno := some (.ret 3) },
    data := [],
    active_loops := [⟨fFrame, 1, 4, 2⟩],
    preexisting_locals := some [],
    exception := none,
    quitted := false }

/-- The normalized source of the break scenario: a top-level loop whose body
breaks out. -/
def c3Lines : List (List Char) :=
  ["for i in range(9):\n".data, "    if i > 2:\n".data,
   "        break\n".data, "print(i)\n".data]

/-- The Logger's state at the statement after the loop (line 3), the
previous statement being the `break` at line 2, with the loop (3 completed
header visits) still active. -/
def c3St : LoggerSt :=
  { lines := c3Lines,
    time := 9,
    prev_env := some { frame := some modFrame, time := some 8, lineno := some (.norm 2) },
    data := [],
    active_loops := [⟨modFrame, 0, 0, 3⟩],
    preexisting_locals := some [],
    exception := none,
    quitted := false }

/-!
# Theorems

Claim-settling theorems, their witnesses and counterexamples, and the
supporting lemmas.
-/

/-! ## C1: the materializer's successor rule -/

/-- The code's scan loop equals the two-phase amended rule: find the first
same-frame Environment along consecutively indexed times, then filter it by
the forward-step condition. -/
theorem scanNextCode_eq_amendedNext (m : List (Nat × Env)) (lines : List (List Char))
    (env : Env) : ∀ (fuel t : Nat),
    scanNextCode m lines env t fuel = amendedNext m lines env t fuel := by
  intro fuel
  induction fuel with
  | zero => intro t; rfl
  | succ n ih =>
    intro t
    simp only [scanNextCode, amendedNext, firstSameFrameScan]
    cases h : timeLookup m t with
    | none => rfl
    | some ne =>
      by_cases hf : frameIs env.frame ne.frame
      · simp only [hf, if_true, forwardStepCheck]
        cases currStmtLookup lines env.lineno with
        | error e => rfl
        | ok cs =>
          cases nextStmtLookup lines ne.lineno with
          | error e => rfl
          | ok ns => rfl
      · simp only [hf, if_false]
        rw [ih (t + 1)]
        rfl

/-- Per-line lists agree under the two rules. -/
theorem adjustList_eq_amended (m : List (Nat × Env)) (lines : List (List Char))
    (fuel : Nat) : ∀ envs : List Env,
    adjustList m lines fuel envs = adjustListAmended m lines fuel envs := by
  intro envs
  induction envs with
  | nil => rfl
  | cons e es ih =>
    simp only [adjustList, adjustListAmended, ih]
    cases e.time with
    | none => simp [scanNextCode_eq_amendedNext]
    | some t => simp [scanNextCode_eq_amendedNext]

/-- Whole timelines agree under the two rules. -/
theorem adjustData_eq_amended (m : List (Nat × Env)) (lines : List (List Char))
    (fuel : Nat) : ∀ d : TimelineData,
    adjustData m lines fuel d = adjustDataAmended m lines fuel d := by
  intro d
  induction d with
  | nil => rfl
  | cons kv rest ih =>
    obtain ⟨k, envs⟩ := kv
    simp only [adjustData, adjustDataAmended, ih, adjustList_eq_amended]

/-- C1 (corrected).  The Timeline Materializer passes loop markers through
unchanged and replaces each time-stamped Environment by the FIRST same-frame
Environment reached while scanning consecutively indexed times, appending it
exactly when it satisfies the forward-step condition (error banner on the
successor, or current statement not a loop header, or strictly deeper
successor indentation) and appending nothing otherwise — in particular the
scan stops at the first same-frame Environment even when that Environment
fails the condition, rather than continuing to a later qualifying one. -/
theorem c1_materializer_stops_at_first_same_frame (d : TimelineData)
    (lines : List (List Char)) :
    adjust_to_next_time_step d lines = adjustAmended d lines := by
  unfold adjust_to_next_time_step adjustAmended
  exact adjustData_eq_amended _ _ _ _

/-- C1 counterexample.  On the raw timeline of two consecutive top-level
loops, the first loop header's final visit has a same-frame successor that
fails the forward-step condition (the second header, equal indentation); the
code appends nothing, while the rule claimed in C1 would continue scanning
and append the later qualifying Environment (the second loop's body line). -/
theorem c1_counterexample_two_loops :
    adjust_to_next_time_step twoLoopData twoLoopLines
      ≠ adjustClaimVersion twoLoopData twoLoopLines := by
  decide

/-! ## C9: the materializer is not idempotent -/

/-- Marker-only per-line lists pass through the materializer unchanged. -/
theorem adjustList_markers (m : List (Nat × Env)) (lines : List (List Char))
    (fuel : Nat) : ∀ envs : List Env,
    (∀ e ∈ envs, e.begin_loop.isSome ∨ e.end_loop.isSome) →
    adjustList m lines fuel envs = .ok envs := by
  intro envs h
  induction envs with
  | nil => rfl
  | cons e es ih =>
    have he := h e (by simp)
    have hes : ∀ e ∈ es, e.begin_loop.isSome ∨ e.end_loop.isSome :=
      fun x hx => h x (by simp [hx])
    have ihs := ih hes
    by_cases hb : e.begin_loop.isSome
    · simp [adjustList, hb, ihs, Except.map]
    · have hend : e.end_loop.isSome := by
        rcases he with h1 | h1
        · exact absurd h1 hb
        · exact h1
      simp [adjustList, hb, hend, ihs, Except.map]

/-- Marker-only timelines pass through the key iteration unchanged. -/
theorem adjustData_markers (m : List (Nat × Env)) (lines : List (List Char))
    (fuel : Nat) : ∀ d : TimelineData, AllMarkers d →
    adjustData m lines fuel d = .ok d := by
  intro d h
  induction d with
  | nil => rfl
  | cons kv rest ih =>
    obtain ⟨k, envs⟩ := kv
    have hk : ∀ e ∈ envs, e.begin_loop.isSome ∨ e.end_loop.isSome :=
      h (k, envs) (by simp)
    have hrest : AllMarkers rest := fun kv hkv e he => h kv (by simp [hkv]) e he
    simp [adjustData, adjustList_markers m lines fuel envs hk, ih hrest, Except.map]

/-- C9 (corrected).  A timeline consisting solely of loop markers is a fixed
point of the materializer, so on marker-only timelines re-running it changes
nothing; general timelines are NOT fixed points (see the counterexample). -/
theorem c9_marker_timelines_are_fixed_points (d : TimelineData)
    (lines : List (List Char)) (h : AllMarkers d) :
    adjust_to_next_time_step d lines = .ok d ∧
      (∀ d', adjust_to_next_time_step d lines = .ok d' →
        adjust_to_next_time_step d' lines = .ok d') := by
  have hfix : adjust_to_next_time_step d lines = .ok d := by
    unfold adjust_to_next_time_step
    exact adjustData_markers _ _ _ d h
  refine ⟨hfix, ?_⟩
  intro d' hd'
  rw [hfix] at hd'
  cases hd'
  exact hfix

/-- C9 witness: a concrete marker-only timeline is left unchanged by the
materializer (and by re-running it). -/
theorem c9_marker_fixed_point_witness :
    AllMarkers markerOnlyData ∧
      adjust_to_next_time_step markerOnlyData twoStmtLines = .ok markerOnlyData := by
  have h : AllMarkers markerOnlyData := by decide
  exact ⟨h, (c9_marker_timelines_are_fixed_points markerOnlyData twoStmtLines h).1⟩

/-- C9 counterexample.  On the two-statement raw timeline the materializer's
output maps line 0 to line 1's recording; re-running it on that output drops
the recording (its successor time is absent from the re-built index), so the
materializer is not idempotent. -/
theorem c9_counterexample_two_statements :
    adjust_to_next_time_step twoStmtData twoStmtLines = .ok materializedTwoStmt ∧
      adjust_to_next_time_step materializedTwoStmt twoStmtLines
        ≠ .ok materializedTwoStmt := by
  decide

/-! ## C6: the step budget at a return notification -/

/-- C6 (code bug).  On a trace whose 100th recording is `f`'s body line and
whose next notification is `f`'s return, `record_env` hits the step budget
and records nothing, after which `user_return`'s unguarded
`data_at("R"+lineno)[-1]` raises an IndexError on the freshly inserted empty
return-variant key; the exception is caught by `compute_runtime_data`'s
`try` and the driving routine reports the run as a runtime failure
(statusCode 2) — the cutoff is surfaced as a run failure, contradicting the
claim. -/
theorem c6_budget_cutoff_raises_at_fresh_return :
    (runLogger budgetLines budgetEvents none).2 = some (.internal .indexError) ∧
      (runLogger budgetLines budgetEvents none).1.time = 100 ∧
      statusOf (main_logic emptyModuleOracle noAst noEval budgetLines []
        budgetEvents none) = some 2 := by
  decide

/-! ## C7: the driving routine does not always produce the triple -/

/-- C7 (code bug).  On the generator trace, the materializer reaches
`lines[env["lineno"]]` with a return-variant (string) line number — the
`remove_R` conversion applied one line below is missing here — raising a
TypeError OUTSIDE the `try` of `compute_runtime_data`, so `main` aborts
before writing anything: no `(statusCode, writeSet, timeline)` triple is
produced. -/
theorem c7_not_always_triple : ¬ claimC7AlwaysTriple := by
  intro h
  obtain ⟨t, ht⟩ := h emptyModuleOracle noAst noEval genLines [] genEvents none
  rw [show main_logic emptyModuleOracle noAst noEval genLines [] genEvents none
    = .error .typeError from by decide] at ht
  exact Except.noConfusion ht

/-! ## C8: the test harness -/

/-- The `TestLine` construction loop, run from any accumulator: parsed tests
are appended in order, malformed comments append their printed report. -/
theorem testsOf_go (astO : AstOracle) :
    ∀ (comments : List (List Char × Nat)) (acc : List (Node × Option Node) × List (List Char)),
    comments.foldl
      (fun acc p =>
        match parse_test_line astO p.1 with
        | .ok t => (acc.1 ++ [t], acc.2)
        | .error msg => (acc.1, acc.2 ++ [testLineReport msg p.2 p.1]))
      acc
      = (acc.1 ++ comments.filterMap (fun p => (parse_test_line astO p.1).toOption),
         acc.2 ++ comments.filterMap (specParseReport astO)) := by
  intro comments
  induction comments with
  | nil => intro acc; simp
  | cons p ps ih =>
    intro acc
    simp only [List.foldl_cons, List.filterMap_cons]
    cases hp : parse_test_line astO p.1 with
    | ok t =>
      simp only [hp, ih, Except.toOption, specParseReport, hp]
      simp
    | error msg =>
      simp only [hp, ih, Except.toOption, specParseReport, hp]
      simp

/-- The evaluation loop, run from any accumulator: recorded triples and
printed evaluation-failure reports, in order. -/
theorem runTests_go (evalO : EvalOracle) :
    ∀ (tests : List (Node × Option Node)) (acc : List TestTriple × List (List Char)),
    tests.foldl
      (fun acc t =>
        match evalO t.1 with
        | .error e => (acc.1, acc.2 ++ [e.msg])
        | .ok a =>
          match t.2 with
          | none => (acc.1 ++ [(a, none, none)], acc.2)
          | some ex =>
            match evalO ex with
            | .error e => (acc.1, acc.2 ++ [e.msg])
            | .ok b => (acc.1 ++ [(a, some b, some (a == b))], acc.2))
      acc
      = (acc.1 ++ tests.filterMap (specRunTriple evalO),
         acc.2 ++ tests.filterMap (specEvalReport evalO)) := by
  intro tests
  induction tests with
  | nil => intro acc; simp
  | cons t ts ih =>
    intro acc
    simp only [List.foldl_cons, List.filterMap_cons]
    cases he : evalO t.1 with
    | error e =>
      simp only [he, ih, specRunTriple, specEvalReport, he]
      simp
    | ok a =>
      cases ht : t.2 with
      | none =>
        simp only [he, ht, ih, specRunTriple, specEvalReport, he]
        simp [ht]
      | some ex =>
        cases hx : evalO ex with
        | error e =>
          simp only [he, ht, hx, ih, specRunTriple, specEvalReport]
          simp [he, ht, hx]
        | ok b =>
          simp only [he, ht, hx, ih, specRunTriple, specEvalReport]
          simp [he, ht, hx]

/-- Composing parse and evaluation per comment gives the spec's triple. -/
theorem specTriple_eq_bind (astO : AstOracle) (evalO : EvalOracle) (text : List Char) :
    specTriple astO evalO text
      = (parse_test_line astO text).toOption.bind (specRunTriple evalO) := by
  unfold specTriple specRunTriple Except.toOption
  cases parse_test_line astO text with
  | error msg => rfl
  | ok t => rfl

/-- C8 (confirmed).  For every list of test assertion comments: the parsed
assertions are exactly the well-formed ones in order (malformed comments are
reported and skipped, not fatal); the recorded results are exactly the
spec's triples — `(actual, expected-or-absent, passed-or-absent)` with
`passed` the structural equality of actual and expected when an expectation
is present and absent otherwise — with any assertion whose evaluation throws
reported and skipped, not fatal. -/
theorem c8_test_harness_reports_skips_and_triples (astO : AstOracle)
    (evalO : EvalOracle) (comments : List (List Char × Nat)) :
    (testsOf astO comments).1
        = comments.filterMap (fun p => (parse_test_line astO p.1).toOption)
      ∧ (testsOf astO comments).2 = comments.filterMap (specParseReport astO)
      ∧ (runTests evalO (testsOf astO comments).1).1
          = comments.filterMap (fun p => specTriple astO evalO p.1)
      ∧ (runTests evalO (testsOf astO comments).1).2
          = (testsOf astO comments).1.filterMap (specEvalReport evalO) := by
  have h1 := testsOf_go astO comments ([], [])
  have h2 := runTests_go evalO
    (comments.filterMap fun p => (parse_test_line astO p.1).toOption) ([], [])
  unfold testsOf runTests
  rw [h1]
  simp only [List.nil_append, h2]
  refine ⟨trivial, trivial, ?_, trivial⟩
  rw [List.filterMap_filterMap]
  apply List.filterMap_congr
  intro p _
  rw [specTriple_eq_bind]

/-! ## C5: assignment-target resolution in the Write-Set Analyzer -/

/-- C5 counterexample.  The claim fails for attribute targets: `a.b = 1` has
a Store-context attribute target whose root name is `a`, but the visitor has
no `visit_Attribute` handler — `generic_visit` only descends into the
Load-context value — so nothing is recorded at all. -/
theorem c5_counterexample_attribute_target_unrecorded :
    ¬ claimC5SubAttrRecorded := by
  intro h
  have hmem := h (.nAttribute 1 (.nName 1 Ctx.load "a".data) "b".data Ctx.store)
    (.nConstant 1 "1".data) 1 "a".data rfl rfl (by decide)
  revert hmem
  decide

/-- C5 (corrected).  For a single-target assignment: a Store-context
SUBSCRIPT target is resolved by `find_id`'s recursive descent through the
value chain and its root identifier is recorded at the target's 1-based line
minus one; when no root name is found the warning is emitted and the write
is skipped; but a Store-context ATTRIBUTE target records nothing (and warns
nothing) — the visitor lacks an attribute handler. -/
theorem c5_subscript_recorded_attribute_skipped
    (lnA ln lnC lnN : Nat) (v sl : Node) (cv nm attr id : List Char) :
    (find_id v = some id → id ≠ magic_var_name →
      collectWrites (.nModule (.cons (.nAssign lnA
        (.cons (.nSubscript ln v sl Ctx.store) .nil) (.nConstant lnC cv)) .nil))
        = { data := [(ln - 1, [id])], warnings := [] })
    ∧ (find_id v = none →
      collectWrites (.nModule (.cons (.nAssign lnA
        (.cons (.nSubscript ln v sl Ctx.store) .nil) (.nConstant lnC cv)) .nil))
        = { data := [], warnings := [subscriptWarning] })
    ∧ collectWrites (.nModule (.cons (.nAssign lnA
        (.cons (.nAttribute ln (.nName lnN Ctx.load nm) attr Ctx.store) .nil)
        (.nConstant lnC cv)) .nil))
        = { data := [], warnings := [] } := by
  refine ⟨?_, ?_, ?_⟩
  · intro hid hm
    simp only [collectWrites, wcVisit, wcVisitList, find_id, hid, record_write,
      if_pos rfl, if_pos hm]
    rfl
  · intro hid
    simp only [collectWrites, wcVisit, wcVisitList, find_id, hid, if_pos rfl]
    simp
  · simp only [collectWrites, wcVisit, wcVisitList]
    have : (Ctx.load = Ctx.store) = False := by simp
    simp [this]

/-- C5 witness: `a.b[0] = 1` (a subscript over an attribute chain) records
root `a` at line 1 (= 2 - 1). -/
theorem c5_subscript_over_attribute_witness :
    find_id (.nAttribute 2 (.nName 2 Ctx.load "a".data) "b".data Ctx.load) = some "a".data
      ∧ collectWrites (.nModule (.cons (.nAssign 2
          (.cons (.nSubscript 2 (.nAttribute 2 (.nName 2 Ctx.load "a".data) "b".data Ctx.load)
            (.nConstant 2 "0".data) Ctx.store) .nil) (.nConstant 2 "1".data)) .nil))
          = { data := [(1, ["a".data])], warnings := [] } :=
  ⟨rfl,
    (c5_subscript_recorded_attribute_skipped 2 2 2 0
      (.nAttribute 2 (.nName 2 Ctx.load "a".data) "b".data Ctx.load)
      (.nConstant 2 "0".data) "1".data [] [] "a".data).1 rfl (by decide)⟩

/-! ## C4: the Write-Set Analyzer's reparse loop -/

/-- A blanked line contains no marker. -/
theorem magic_not_in_newline : containsSub magic_var_name "\n".data = false := by
  decide

/-- The marker never matches the empty (out-of-range) line. -/
theorem magic_not_in_nil : containsSub magic_var_name [] = false := by decide

/-- Blanking a marker line strictly decreases the number of marker lines. -/
theorem magicCount_set_newline_lt :
    ∀ (lines : List (List Char)) (k : Nat),
    containsSub magic_var_name (lines.getD k []) = true →
    magicCount (lines.set k "\n".data) < magicCount lines := by
  intro lines
  induction lines with
  | nil =>
    intro k h
    rw [List.getD_nil] at h
    rw [magic_not_in_nil] at h
    cases h
  | cons x xs ih =>
    intro k h
    cases k with
    | zero =>
      have hx : containsSub magic_var_name x = true := h
      have hnl : containsSub magic_var_name ['\n'] = false := by decide
      simp only [List.set_cons_zero, magicCount, List.countP_cons, hx, hnl,
        Bool.false_eq_true, if_false, if_true]
      simp
    | succ k =>
      have hx := ih k h
      simp only [List.set_cons_succ, magicCount, List.countP_cons] at hx ⊢
      omega

/-- The blanking pass never increases, and when it reports a change strictly
decreases, the number of marker lines. -/
theorem blankLoop_magicCount :
    ∀ (k : Nat) (lines : List (List Char)),
    magicCount (blankLoop lines k).1 ≤ magicCount lines
    ∧ ((blankLoop lines k).2 = true →
        magicCount (blankLoop lines k).1 < magicCount lines) := by
  intro k
  induction k with
  | zero =>
    intro lines
    exact ⟨le_refl _, by intro h; cases h⟩
  | succ k ih =>
    intro lines
    by_cases hp : containsSub magic_var_name (lines.getD k []) = true
    · have hlt := magicCount_set_newline_lt lines k hp
      have hr := ih (lines.set k "\n".data)
      constructor
      · simp only [blankLoop, hp, if_true]
        exact le_of_lt (lt_of_le_of_lt hr.1 hlt)
      · intro _
        simp only [blankLoop, hp, if_true]
        exact lt_of_le_of_lt hr.1 hlt
    · have hp' : containsSub magic_var_name (lines.getD k []) = false := by
        cases hcs : containsSub magic_var_name (lines.getD k [])
        · rfl
        · exact absurd hcs hp
      have hr := ih lines
      constructor
      · simp only [blankLoop, hp', Bool.false_eq_true, if_false]
        exact hr.1
      · intro hch
        simp only [blankLoop, hp', Bool.false_eq_true, if_false] at hch ⊢
        exact hr.2 (by simpa using hch)

/-- The reparse loop's result does not depend on the fuel, once the fuel
exceeds the number of marker lines (each failing round blanks at least one
of them). -/
theorem computeWritesLoop_fuel_ge (P : ParseOracle) :
    ∀ (f1 f2 : Nat) (lines : List (List Char)),
    magicCount lines < f1 → magicCount lines < f2 →
    computeWritesLoop P lines f1 = computeWritesLoop P lines f2 := by
  intro f1
  induction f1 with
  | zero => intro f2 lines h1; omega
  | succ n ih =>
    intro f2 lines h1 h2
    cases f2 with
    | zero => omega
    | succ m =>
      simp only [computeWritesLoop]
      cases hP : P lines with
      | ok root => rfl
      | error ln =>
        by_cases hch : (blankLoop lines ln).2 = true
        · simp only [hch, if_true]
          have hlt := (blankLoop_magicCount ln lines).2 hch
          exact ih m (blankLoop lines ln).1 (by omega) (by omega)
        · have hch' : (blankLoop lines ln).2 = false := by
            cases hb : (blankLoop lines ln).2
            · rfl
            · exact absurd hb hch
          simp only [hch', Bool.false_eq_true, if_false]

/-- C4 (corrected).  One round of the analyzer's retry loop: parse success
yields the collector's write set; a parse failure at 1-based line `ln`
blanks EVERY marker (injected no-op) line at index `ln - 1` or below — not
just the single offending line — and retries on the blanked source; when no
such line remained to blank, the failure is terminal and no write-set is
produced. -/
theorem c4_retry_blanks_all_noops_at_or_below (P : ParseOracle)
    (lines : List (List Char)) :
    (∀ root, P lines = .ok root →
      compute_writes P lines = ((collectWrites root).data, none))
    ∧ (∀ ln, P lines = .error ln → (blankLoop lines ln).2 = false →
        compute_writes P lines = ([], some ln))
    ∧ (∀ ln, P lines = .error ln → (blankLoop lines ln).2 = true →
        compute_writes P lines = compute_writes P (blankLoop lines ln).1) := by
  refine ⟨?_, ?_, ?_⟩
  · intro root hP
    simp only [compute_writes, computeWritesLoop, hP]
  · intro ln hP hch
    simp only [compute_writes, computeWritesLoop, hP, hch, Bool.false_eq_true,
      if_false]
  · intro ln hP hch
    have hlt := (blankLoop_magicCount ln lines).2 hch
    have hstable := computeWritesLoop_fuel_ge P (magicCount lines)
      (magicCount (blankLoop lines ln).1 + 1) (blankLoop lines ln).1
      (by omega) (by omega)
    simp only [compute_writes, computeWritesLoop, hP, hch, if_true, hstable]

/-- C4 witness: on the retry scenario the first parse fails at line 2 and
both marker lines (indices 0 and 1) get blanked before the retry. -/
theorem c4_retry_witness :
    retryOracle retryLines = .error 2
      ∧ (blankLoop retryLines 2).2 = true
      ∧ compute_writes retryOracle retryLines
          = compute_writes retryOracle (blankLoop retryLines 2).1 :=
  ⟨rfl, rfl,
    (c4_retry_blanks_all_noops_at_or_below retryOracle retryLines).2.2 2 rfl rfl⟩

/-- C4 counterexample.  Blanking every marker line at or below the reported
position differs observably from blanking the single offending line: on the
retry scenario the code blanks both no-op lines and the reparse succeeds
(writes recorded, no error), while the claimed single-line rule blanks only
line index 1, fails again at the same position with no further removable
line, and reports a terminal parse failure. -/
theorem c4_counterexample_single_blank_differs :
    compute_writes retryOracle retryLines = ([(2, ["x".data])], none)
      ∧ computeWritesSingle retryOracle retryLines = ([], some 2) := by
  decide

/-! ## C2 and C3: loop-end detection -/

/-- Reading the key just stored. -/
theorem dataAt_cons_self (k : LineNo) (v : List Env) (rest : TimelineData) :
    dataAt ((k, v) :: rest) k = v := by
  simp [dataAt, dataFind]

/-- Reading past a different key. -/
theorem dataAt_cons_ne (k l : LineNo) (v : List Env) (rest : TimelineData)
    (h : ¬ k = l) : dataAt ((k, v) :: rest) l = dataAt rest l := by
  simp [dataAt, dataFind, h]

/-- Appending at one key leaves every other key's list unchanged and extends
that key's list by the one Environment. -/
theorem dataAt_appendEnv (l' : LineNo) (e : Env) :
    ∀ (d : TimelineData) (l : LineNo),
    dataAt (dataAppendEnv d l' e) l
      = if l' = l then dataAt d l ++ [e] else dataAt d l := by
  intro d
  induction d with
  | nil =>
    intro l
    by_cases h : l' = l
    · simp [dataAppendEnv, dataAt, dataFind, h]
    · simp [dataAppendEnv, dataAt, dataFind, h]
  | cons kv rest ih =>
    intro l
    obtain ⟨k, v⟩ := kv
    by_cases hk : k = l'
    · subst hk
      have hstep : dataAppendEnv ((k, v) :: rest) k e = (k, v ++ [e]) :: rest := by
        simp [dataAppendEnv]
      rw [hstep]
      by_cases hl : k = l
      · subst hl
        simp [dataAt_cons_self]
      · rw [dataAt_cons_ne k l _ _ hl, dataAt_cons_ne k l _ _ hl, if_neg hl]
    · have hk' : ¬ (l' = k) := fun h => hk h.symm
      have hstep : dataAppendEnv ((k, v) :: rest) l' e
          = (k, v) :: dataAppendEnv rest l' e := by
        simp [dataAppendEnv, fun h => hk (h : k = l')]
      rw [hstep]
      by_cases hl : k = l
      · subst hl
        rw [dataAt_cons_self, dataAt_cons_self, if_neg hk']
      · rw [dataAt_cons_ne k l _ _ hl, dataAt_cons_ne k l _ _ hl, ih l]

/-- The fold appending one marker per body line extends a queried line's
list by as many copies as the line occurs in the body list. -/
theorem dataAt_appendMarkerAll (e : Env) :
    ∀ (ls : List Nat) (d : TimelineData) (l : LineNo),
    dataAt (appendMarkerAll d ls e) l
      = dataAt d l ++ (match l with
        | .norm n => List.replicate (ls.count n) e
        | .ret _ => []) := by
  intro ls
  induction ls with
  | nil =>
    intro d l
    cases l <;> simp [appendMarkerAll]
  | cons x xs ih =>
    intro d l
    have hstep : appendMarkerAll d (x :: xs) e
        = appendMarkerAll (dataAppendEnv d (.norm x) e) xs e := rfl
    rw [hstep, ih, dataAt_appendEnv]
    cases l with
    | ret n => simp
    | norm n =>
      by_cases hx : x = n
      · subst hx
        simp [List.count_cons, List.replicate_succ]
      · have : ¬ ((LineNo.norm x) = LineNo.norm n) := by
          intro hc
          cases hc
          exact hx rfl
        simp [this, List.count_cons, hx]

/-- The successive-pop fold, per queried line. -/
theorem dataAt_popMarkersFold (lines : List (List Char)) :
    ∀ (stks : List (List LoopInfo)) (d : TimelineData) (l : LineNo),
    dataAt (popMarkersFold lines d stks) l
      = dataAt d l ++ poppedEndMarkers lines stks l := by
  intro stks
  induction stks with
  | nil =>
    intro d l
    simp [popMarkersFold, poppedEndMarkers]
  | cons stk stks ih =>
    intro d l
    cases hlast : stk.getLast? with
    | none =>
      have hstep : popMarkersFold lines d (stk :: stks)
          = popMarkersFold lines d stks := by
        simp [popMarkersFold, hlast]
      rw [hstep, ih]
      simp [poppedEndMarkers, hlast]
    | some lp =>
      have hstep : popMarkersFold lines d (stk :: stks)
          = popMarkersFold lines
              (appendMarkerAll d (stmts_in_loop lines lp.lineno) (endLoopDummyEnv stk)) stks := by
        simp [popMarkersFold, hlast]
      rw [hstep, ih, dataAt_appendMarkerAll]
      cases l with
      | ret n => simp [poppedEndMarkers, hlast]
      | norm n => simp [poppedEndMarkers, hlast, List.append_assoc]

/-- Replacing the top of a non-empty stack. -/
theorem modifyTopLoop_concat (f : LoopInfo → LoopInfo) (l : List LoopInfo)
    (top : LoopInfo) : modifyTopLoop f (l ++ [top]) = l ++ [f top] := by
  simp [modifyTopLoop, List.getLast?_concat, List.dropLast_concat]

/-- The `while` loop of the return branch, against the explicit pop
sequence: each iteration increments the top's count once, appends its
markers, and pops. -/
theorem popAllLoops_spec_aux :
    ∀ (rev : List LoopInfo) (s : LoggerSt), s.active_loops = rev.reverse →
    popAllLoops s rev.length
      = { s with
          active_loops := [],
          data := popMarkersFold s.lines s.data (popStacks rev) } := by
  intro rev
  induction rev with
  | nil =>
    intro s h
    simp only [List.reverse_nil] at h
    cases s
    simp only at h
    subst h
    simp [popAllLoops, popStacks, popMarkersFold]
  | cons top rest ih =>
    intro s h
    have hrev : s.active_loops = rest.reverse ++ [top] := by
      simpa [List.reverse_cons] using h
    have hlast : s.active_loops.getLast? = some top := by
      rw [hrev]
      exact List.getLast?_concat _
    have hstep : popAllLoops s (rest.length + 1) = popAllLoops (popTopLoop s) rest.length := by
      simp [popAllLoops, hlast]
    have hpop : popTopLoop s
        = { s with
            active_loops := rest.reverse,
            data := appendMarkerAll s.data (stmts_in_loop s.lines top.lineno)
              (endLoopDummyEnv (rest.reverse ++ [incLoop top])) } := by
      simp only [popTopLoop, hlast]
      rw [hrev, modifyTopLoop_concat]
      simp only [List.dropLast_concat]
      rfl
    have hfold : popMarkersFold s.lines s.data (popStacks (top :: rest))
        = popMarkersFold s.lines
            (appendMarkerAll s.data (stmts_in_loop s.lines top.lineno)
              (endLoopDummyEnv (rest.reverse ++ [incLoop top])))
            (popStacks rest) := by
      simp only [popStacks, popMarkersFold, List.foldl_cons, List.getLast?_concat]
      rfl
    have hlen : (top :: rest).length = rest.length + 1 := rfl
    rw [hlen, hstep, hpop, ih _ rfl, hfold]

/-- Body-line scanning yields indices at or after the start index. -/
theorem stmtsInLoopAux_le (lines : List (List Char)) (li : Nat) :
    ∀ (fuel l : Nat), ∀ x ∈ stmtsInLoopAux lines li l fuel, l ≤ x := by
  intro fuel
  induction fuel with
  | zero =>
    intro l x hx
    simp [stmtsInLoopAux] at hx
  | succ k ih =>
    intro l x hx
    simp only [stmtsInLoopAux] at hx
    by_cases h1 : strip (lines.getD l []) = []
    · rw [if_pos h1] at hx
      exact le_trans (Nat.le_succ l) (ih (l + 1) x hx)
    · by_cases h2 : indent (lines.getD l []) ≤ li
      · rw [if_neg h1, if_pos h2] at hx
        simp at hx
      · rw [if_neg h1, if_neg h2] at hx
        rcases List.mem_cons.mp hx with h | h
        · exact le_of_eq h.symm
        · exact le_trans (Nat.le_succ l) (ih (l + 1) x h)

/-- Body-line scanning never lists a line twice. -/
theorem stmtsInLoopAux_nodup (lines : List (List Char)) (li : Nat) :
    ∀ (fuel l : Nat), (stmtsInLoopAux lines li l fuel).Nodup := by
  intro fuel
  induction fuel with
  | zero =>
    intro l
    simp [stmtsInLoopAux]
  | succ k ih =>
    intro l
    simp only [stmtsInLoopAux]
    by_cases h1 : strip (lines.getD l []) = []
    · rw [if_pos h1]
      exact ih (l + 1)
    · by_cases h2 : indent (lines.getD l []) ≤ li
      · rw [if_neg h1, if_pos h2]
        simp
      · rw [if_neg h1, if_neg h2]
        refine List.nodup_cons.mpr ⟨?_, ih (l + 1)⟩
        intro hmem
        have := stmtsInLoopAux_le lines li k (l + 1) l hmem
        omega

/-- A loop body never contains a line twice, so "one marker per body line"
is exactly one. -/
theorem stmts_in_loop_nodup (lines : List (List Char)) (ln : Nat) :
    (stmts_in_loop lines ln).Nodup :=
  stmtsInLoopAux_nodup lines _ _ _

/-- Exactly one pop per stack entry. -/
theorem popStacks_length : ∀ rev : List LoopInfo,
    (popStacks rev).length = rev.length := by
  intro rev
  induction rev with
  | nil => rfl
  | cons top rest ih => simp [popStacks, ih]

/-- At each pop the stack's top is one of the original loops with its
iteration count incremented exactly once. -/
theorem popStacks_top : ∀ (rev : List LoopInfo) (stk : List LoopInfo),
    stk ∈ popStacks rev → ∃ lp ∈ rev, stk.getLast? = some (incLoop lp) := by
  intro rev
  induction rev with
  | nil =>
    intro stk h
    simp [popStacks] at h
  | cons top rest ih =>
    intro stk h
    rcases List.mem_cons.mp h with h | h
    · exact ⟨top, by simp, by rw [h]; exact List.getLast?_concat _⟩
    · obtain ⟨lp, hlp, hl⟩ := ih stk h
      exact ⟨lp, by simp [hlp], hl⟩

/-- C2 (confirmed).  When a previous Environment exists, the active-loop
stack is non-empty with its top on the current frame, and the previous
statement is a return of the same named function, `record_loop_end` pops
EVERY stack entry: the resulting stack is empty, each popped loop's
iteration count is incremented exactly once (visible as the top of the
stack state stamped into its marker), and every line inside each popped
loop receives exactly one synthetic loop-end marker Environment carrying
only loop-context fields — no variables, no time stamp, no frame. -/
theorem c2_return_pops_all_loops (s : LoggerSt) (frame : Frame) (lineno : Nat)
    (pe : Env) (top : LoopInfo)
    (hpe : s.prev_env = some pe)
    (htop : s.active_loops.getLast? = some top)
    (hfr : top.frame.fid = frame.fid)
    (hret : is_return_str (s.lines.getD (remove_R (pe.lineno.getD (.norm 0))) []) = true)
    (hname : frame.name = (pe.frame.getD frame).name) :
    record_loop_end s frame lineno
        = { s with
            active_loops := [],
            data := popMarkersFold s.lines s.data (popStacks s.active_loops.reverse) }
      ∧ (∀ l, dataAt (record_loop_end s frame lineno).data l
          = dataAt s.data l
              ++ poppedEndMarkers s.lines (popStacks s.active_loops.reverse) l)
      ∧ (popStacks s.active_loops.reverse).length = s.active_loops.length
      ∧ (∀ stk ∈ popStacks s.active_loops.reverse, ∃ lp ∈ s.active_loops,
          stk.getLast? = some (incLoop lp))
      ∧ (∀ stk : List LoopInfo, (endLoopDummyEnv stk).vars = []
          ∧ (endLoopDummyEnv stk).time = none
          ∧ (endLoopDummyEnv stk).frame = none
          ∧ (endLoopDummyEnv stk).end_loop = some (active_loops_iter_str stk))
      ∧ (∀ lp ∈ s.active_loops, (stmts_in_loop s.lines lp.lineno).Nodup) := by
  have hspec := popAllLoops_spec_aux s.active_loops.reverse s
    (by rw [List.reverse_reverse])
  rw [List.length_reverse] at hspec
  have hbranch : record_loop_end s frame lineno
      = popAllLoops s s.active_loops.length := by
    simp only [record_loop_end, hpe, htop]
    rw [if_pos hfr, if_pos ⟨hret, hname⟩]
  have hmain := hbranch.trans hspec
  refine ⟨hmain, ?_, (popStacks_length _).trans (List.length_reverse _), ?_, ?_, ?_⟩
  · intro l
    rw [hmain]
    exact dataAt_popMarkersFold s.lines _ s.data l
  · intro stk hstk
    obtain ⟨lp, hlp, hl⟩ := popStacks_top _ stk hstk
    exact ⟨lp, List.mem_reverse.mp hlp, hl⟩
  · intro stk
    exact ⟨rfl, rfl, rfl, rfl⟩
  · intro lp _
    exact stmts_in_loop_nodup s.lines lp.lineno

/-- C2 witness: in scenario B (a `return` inside a `for` inside `f`), after
`f`'s return-variant recording the rerun loop-end detection empties the
stack and each body line of the loop (lines 2 and 3) receives exactly one
end marker stamped with the once-incremented iteration count 3. -/
theorem c2_return_pops_all_loops_witness :
    is_return_str (c2Lines.getD 3 []) = true
      ∧ (record_loop_end c2St fFrame 4).active_loops = []
      ∧ dataAt (record_loop_end c2St fFrame 4).data (.norm 2)
          = [endLoopDummyEnv [⟨fFrame, 1, 4, 3⟩]]
      ∧ dataAt (record_loop_end c2St fFrame 4).data (.norm 3)
          = [endLoopDummyEnv [⟨fFrame, 1, 4, 3⟩]] := by
  have h := c2_return_pops_all_loops c2St fFrame 4
    { frame := some fFrame, time := some 5, lineno := some (.ret 3) }
    ⟨fFrame, 1, 4, 2⟩ rfl rfl rfl (by decide) rfl
  refine ⟨by decide, ?_, ?_, ?_⟩
  · rw [h.1]
  · rw [h.2.1 (.norm 2)]
    decide
  · rw [h.2.1 (.norm 3)]
    decide

/-- A stack with a known top splits into its prefix and the top. -/
theorem stack_split_of_getLast (stack : List LoopInfo) (top : LoopInfo)
    (h : stack.getLast? = some top) : stack = stack.dropLast ++ [top] := by
  rcases List.eq_nil_or_concat stack with hnil | ⟨l', a, hcat⟩
  · rw [hnil] at h
    cases h
  · subst hcat
    rw [List.concat_eq_append] at h ⊢
    rw [List.getLast?_concat] at h
    cases h
    rw [List.dropLast_concat]

/-- C3 (confirmed).  In the non-return case, when the current indentation is
at or below the top loop's header indentation and the current line differs
from the header line, `record_loop_end` pops exactly the top loop; if the
immediately preceding statement was a `break`, the top loop's iteration
count is incremented once BEFORE the markers are stamped and the loop is
popped (so a body run 3 times then broken on the 4th header visit stamps
count 4, not 3), and every line inside the popped loop receives exactly one
loop-end marker. -/
theorem c3_nonreturn_pops_top_only (s : LoggerSt) (frame : Frame) (lineno : Nat)
    (pe : Env) (top : LoopInfo)
    (hpe : s.prev_env = some pe)
    (htop : s.active_loops.getLast? = some top)
    (hfr : top.frame.fid = frame.fid)
    (hnotret : ¬ (is_return_str (s.lines.getD (remove_R (pe.lineno.getD (.norm 0))) []) = true
        ∧ frame.name = (pe.frame.getD frame).name))
    (hind : indent (s.lines.getD lineno []) ≤ top.indent)
    (hne : lineno ≠ top.lineno) :
    (is_break_str (s.lines.getD (remove_R (pe.lineno.getD (.norm 0))) []) = true →
        record_loop_end s frame lineno
          = { s with
              active_loops := s.active_loops.dropLast,
              data := appendMarkerAll s.data (stmts_in_loop s.lines top.lineno)
                (endLoopDummyEnv (s.active_loops.dropLast ++ [incLoop top])) }
        ∧ ∀ l, dataAt (record_loop_end s frame lineno).data l
            = dataAt s.data l ++ (match l with
              | .norm n => List.replicate ((stmts_in_loop s.lines top.lineno).count n)
                  (endLoopDummyEnv (s.active_loops.dropLast ++ [incLoop top]))
              | .ret _ => []))
      ∧ (is_break_str (s.lines.getD (remove_R (pe.lineno.getD (.norm 0))) []) = false →
        record_loop_end s frame lineno
          = { s with
              active_loops := s.active_loops.dropLast,
              data := appendMarkerAll s.data (stmts_in_loop s.lines top.lineno)
                (endLoopDummyEnv s.active_loops) }
        ∧ ∀ l, dataAt (record_loop_end s frame lineno).data l
            = dataAt s.data l ++ (match l with
              | .norm n => List.replicate ((stmts_in_loop s.lines top.lineno).count n)
                  (endLoopDummyEnv s.active_loops)
              | .ret _ => []))
      ∧ (stmts_in_loop s.lines top.lineno).Nodup := by
  have hsplit := stack_split_of_getLast s.active_loops top htop
  constructor
  · intro hbr
    have hred : record_loop_end s frame lineno
        = { s with
            active_loops := s.active_loops.dropLast,
            data := appendMarkerAll s.data (stmts_in_loop s.lines top.lineno)
              (endLoopDummyEnv (s.active_loops.dropLast ++ [incLoop top])) } := by
      simp only [record_loop_end, hpe, htop]
      rw [if_pos hfr, if_neg hnotret, if_pos ⟨hind, hne⟩, if_pos hbr]
      conv_lhs => rw [hsplit]
      rw [modifyTopLoop_concat]
      simp only [List.dropLast_concat]
      rfl
    refine ⟨hred, ?_⟩
    intro l
    rw [hred]
    simp only
    rw [dataAt_appendMarkerAll]
  · constructor
    · intro hbr
      have hbr' : ¬ (is_break_str (s.lines.getD (remove_R (pe.lineno.getD (.norm 0))) []) = true) := by
        rw [hbr]
        simp
      have hred : record_loop_end s frame lineno
          = { s with
              active_loops := s.active_loops.dropLast,
              data := appendMarkerAll s.data (stmts_in_loop s.lines top.lineno)
                (endLoopDummyEnv s.active_loops) } := by
        simp only [record_loop_end, hpe, htop]
        rw [if_pos hfr, if_neg hnotret, if_pos ⟨hind, hne⟩, if_neg hbr']
        rw [hpe]
      refine ⟨hred, ?_⟩
      intro l
      rw [hred]
      simp only
      rw [dataAt_appendMarkerAll]
    · exact stmts_in_loop_nodup s.lines top.lineno

/-- C3 witness: after three completed header visits and a `break`, loop-end
detection at the post-loop line increments the count to 4 before popping, so
the marker on the body lines reports iteration 4, not 3, and the loop is
popped. -/
theorem c3_nonreturn_pops_top_only_witness :
    is_break_str (c3Lines.getD 2 []) = true
      ∧ (record_loop_end c3St modFrame 3).active_loops = []
      ∧ dataAt (record_loop_end c3St modFrame 3).data (.norm 1)
          = [endLoopDummyEnv [⟨modFrame, 0, 0, 4⟩]]
      ∧ (endLoopDummyEnv [⟨modFrame, 0, 0, 4⟩]).end_loop = some "4".data := by
  have h := c3_nonreturn_pops_top_only c3St modFrame 3
    { frame := some modFrame, time := some 8, lineno := some (.norm 2) }
    ⟨modFrame, 0, 0, 3⟩ rfl rfl rfl (by decide) (by decide) (by decide)
  have hb := h.1 (by decide)
  refine ⟨by decide, ?_, ?_, by decide⟩
  · rw [hb.1]
    rfl
  · rw [hb.2 (.norm 1)]
    decide

/-! ## C10: density of the time stamps -/

/-- Unfolding the stamp list over a stored key. -/
theorem dataStamps_cons (k : LineNo) (v : List Env) (rest : TimelineData) :
    dataStamps ((k, v) :: rest) = v.filterMap Env.time ++ dataStamps rest := by
  simp [dataStamps]

/-- Recording one Environment adds exactly its stamp. -/
theorem count_dataStamps_appendEnv (l : LineNo) (e : Env) (t : Nat) :
    ∀ d : TimelineData,
    (dataStamps (dataAppendEnv d l e)).count t
      = (dataStamps d).count t + (if e.time = some t then 1 else 0) := by
  intro d
  induction d with
  | nil =>
    rw [show dataAppendEnv [] l e = [(l, [e])] from rfl, dataStamps_cons]
    cases he : e.time with
    | none => simp [dataStamps, he]
    | some u =>
      by_cases hu : u = t
      · subst hu
        simp [dataStamps, he, List.count_cons]
      · simp [dataStamps, he, List.count_cons, hu]
  | cons kv rest ih =>
    obtain ⟨k, v⟩ := kv
    by_cases hk : k = l
    · subst hk
      have hstep : dataAppendEnv ((k, v) :: rest) k e = (k, v ++ [e]) :: rest := by
        simp [dataAppendEnv]
      rw [hstep, dataStamps_cons, dataStamps_cons, List.filterMap_append]
      simp only [List.count_append]
      cases he : e.time with
      | none =>
        simp [he]
      | some u =>
        by_cases hu : u = t
        · subst hu
          simp [he, List.count_cons]
          omega
        · simp [he, List.count_cons, hu]
    · have hstep : dataAppendEnv ((k, v) :: rest) l e
          = (k, v) :: dataAppendEnv rest l e := by
        simp [dataAppendEnv, hk]
      rw [hstep, dataStamps_cons, dataStamps_cons]
      simp only [List.count_append, ih]
      omega

/-- An Environment without a time stamp (a marker) adds nothing. -/
theorem dataStamps_appendEnv_none (l : LineNo) (e : Env) (he : e.time = none) :
    ∀ d : TimelineData, dataStamps (dataAppendEnv d l e) = dataStamps d := by
  intro d
  induction d with
  | nil => simp [dataAppendEnv, dataStamps, he]
  | cons kv rest ih =>
    obtain ⟨k, v⟩ := kv
    by_cases hk : k = l
    · subst hk
      simp [dataAppendEnv, dataStamps_cons, he]
    · simp [dataAppendEnv, hk, dataStamps_cons, ih]

/-- Stamping markers over a body never changes the stamp list. -/
theorem dataStamps_appendMarkerAll (e : Env) (he : e.time = none) :
    ∀ (ls : List Nat) (d : TimelineData),
    dataStamps (appendMarkerAll d ls e) = dataStamps d := by
  intro ls
  induction ls with
  | nil => intro d; rfl
  | cons x xs ih =>
    intro d
    have hstep : appendMarkerAll d (x :: xs) e
        = appendMarkerAll (dataAppendEnv d (.norm x) e) xs e := rfl
    rw [hstep, ih, dataStamps_appendEnv_none _ _ he]

/-- Inserting an empty key changes no stamps. -/
theorem dataStamps_ensureKey (l : LineNo) :
    ∀ d : TimelineData, dataStamps (dataEnsureKey d l) = dataStamps d := by
  intro d
  induction d with
  | nil => simp [dataEnsureKey, dataStamps]
  | cons kv rest ih =>
    obtain ⟨k, v⟩ := kv
    by_cases hk : k = l
    · subst hk
      simp [dataEnsureKey, dataStamps_cons]
    · simp [dataEnsureKey, hk, dataStamps_cons, ih]

/-- A per-Environment rewrite that keeps the time field keeps the stamps. -/
theorem filterMap_time_map_preserve (f : Env → Env)
    (hf : ∀ e, (f e).time = e.time) :
    ∀ v : List Env, (v.map f).filterMap Env.time = v.filterMap Env.time := by
  intro v
  induction v with
  | nil => rfl
  | cons e es ih =>
    simp only [List.map_cons, List.filterMap_cons, hf e, ih]

/-- Linking the previous Environment's `next_lineno` keeps the stamps. -/
theorem dataStamps_setNextByTime (t : Option Nat) (l : LineNo) :
    ∀ d : TimelineData, dataStamps (dataSetNextByTime d t l) = dataStamps d := by
  intro d
  induction d with
  | nil => rfl
  | cons kv rest ih =>
    obtain ⟨k, v⟩ := kv
    simp only [dataSetNextByTime, List.map_cons] at ih ⊢
    rw [dataStamps_cons, dataStamps_cons, ih]
    congr 1
    apply filterMap_time_map_preserve
    intro e
    by_cases he : e.time = t
    · simp [he]
    · simp [he]

/-- Rewriting the last Environment of a list, keeping time. -/
theorem filterMap_time_modifyLast (f : Env → Env)
    (hf : ∀ e, (f e).time = e.time) :
    ∀ v : List Env, (modifyLastEnv f v).filterMap Env.time = v.filterMap Env.time := by
  intro v
  induction v with
  | nil => rfl
  | cons e es ih =>
    cases es with
    | nil => simp [modifyLastEnv, List.filterMap_cons, hf e]
    | cons e' rest =>
      simp only [modifyLastEnv, List.filterMap_cons] at ih ⊢
      rw [ih]

/-- Attaching a return value or banner to a stored Environment keeps the
stamps. -/
theorem dataStamps_dataModifyLast (l : LineNo) (f : Env → Env)
    (hf : ∀ e, (f e).time = e.time) :
    ∀ d : TimelineData, dataStamps (dataModifyLast d l f) = dataStamps d := by
  intro d
  induction d with
  | nil => rfl
  | cons kv rest ih =>
    obtain ⟨k, v⟩ := kv
    simp only [dataModifyLast, List.map_cons] at ih ⊢
    by_cases hk : k = l
    · simp only [if_pos hk, dataStamps_cons, ih]
      rw [filterMap_time_modifyLast f hf]
    · simp only [if_neg hk, dataStamps_cons, ih]

/-- One pop keeps stamps and the counter. -/
theorem popTopLoop_stamps (s : LoggerSt) :
    dataStamps (popTopLoop s).data = dataStamps s.data
      ∧ (popTopLoop s).time = s.time := by
  cases h : s.active_loops.getLast? with
  | none => simp [popTopLoop, h]
  | some top =>
    simp only [popTopLoop, h]
    constructor <;>
      first
        | trivial
        | rfl
        | exact dataStamps_appendMarkerAll _ rfl _ _

/-- The whole pop loop keeps stamps and the counter. -/
theorem popAllLoops_stamps : ∀ (fuel : Nat) (s : LoggerSt),
    dataStamps (popAllLoops s fuel).data = dataStamps s.data
      ∧ (popAllLoops s fuel).time = s.time := by
  intro fuel
  induction fuel with
  | zero => intro s; exact ⟨rfl, rfl⟩
  | succ k ih =>
    intro s
    cases h : s.active_loops.getLast? with
    | none => simp [popAllLoops, h]
    | some top =>
      simp only [popAllLoops, h]
      have h1 := ih (popTopLoop s)
      have h2 := popTopLoop_stamps s
      exact ⟨h1.1.trans h2.1, h1.2.trans h2.2⟩

/-- Loop-end detection only stamps markers: stamps and counter unchanged. -/
theorem record_loop_end_stamps (s : LoggerSt) (frame : Frame) (lineno : Nat) :
    dataStamps (record_loop_end s frame lineno).data = dataStamps s.data
      ∧ (record_loop_end s frame lineno).time = s.time := by
  cases hp : s.prev_env with
  | none => cases ht : s.active_loops.getLast? <;> simp [record_loop_end, hp, ht]
  | some pe =>
    cases ht : s.active_loops.getLast? with
    | none => simp [record_loop_end, hp, ht]
    | some top =>
      simp only [record_loop_end, hp, ht]
      split
      · split
        · exact popAllLoops_stamps _ _
        · split
          · split <;>
              (constructor <;>
                first
                  | trivial
                  | rfl
                  | exact dataStamps_appendMarkerAll _ rfl _ _)
          · constructor <;> trivial
      · constructor <;> trivial

/-- Loop-begin detection only stamps markers: stamps and counter unchanged. -/
theorem record_loop_begin_stamps (s : LoggerSt) (frame : Frame) (lineno : Nat) :
    dataStamps (record_loop_begin s frame lineno).data = dataStamps s.data
      ∧ (record_loop_begin s frame lineno).time = s.time := by
  simp only [record_loop_begin]
  cases hl : is_loop_str (s.lines.getD lineno []) with
  | false => exact ⟨rfl, rfl⟩
  | true =>
    cases ht : s.active_loops.getLast? with
    | none => exact ⟨dataStamps_appendMarkerAll _ rfl _ _, rfl⟩
    | some top =>
      dsimp only
      by_cases he : top.lineno = lineno
      · rw [if_pos he]
        exact ⟨rfl, rfl⟩
      · rw [if_neg he]
        exact ⟨dataStamps_appendMarkerAll _ rfl _ _, rfl⟩

/-- Transport of the density invariant along stamp-preserving steps. -/
theorem stampInv_of_preserve {s s' : LoggerSt}
    (hd : dataStamps s'.data = dataStamps s.data) (ht : s'.time = s.time)
    (h : StampInv s) : StampInv s' := by
  intro t
  rw [hd, ht]
  exact h t

/-- `record_env` either records nothing (budget reached) or stamps exactly
the current counter and advances it by one: density is preserved. -/
theorem record_env_stampInv (s : LoggerSt) (snap : FrameSnap) (lineno : LineNo)
    (h : StampInv s) : StampInv (record_env s snap lineno) := by
  by_cases hb : s.time ≥ 100
  · simp only [record_env, if_pos hb]
    exact h
  · simp only [record_env, if_neg hb]
    cases hp : s.prev_env with
    | none =>
      intro t
      simp only
      rw [count_dataStamps_appendEnv]
      simp only [Option.some.injEq]
      rw [h t]
      split_ifs <;> omega
    | some pe =>
      intro t
      simp only
      rw [dataStamps_setNextByTime, count_dataStamps_appendEnv]
      simp only [Option.some.injEq]
      rw [h t]
      split_ifs <;> omega

/-- The loop-end / record / loop-begin sequence of one before-statement
notification preserves density. -/
theorem record_sequence_stampInv (s0 : LoggerSt) (snap : FrameSnap) (ln : Nat)
    (h : StampInv s0) :
    StampInv (record_loop_begin
      (record_env (record_loop_end s0 snap.frame ln) snap (.norm ln))
      snap.frame ln) := by
  have h2 := record_loop_end_stamps s0 snap.frame ln
  have h3 := record_env_stampInv (record_loop_end s0 snap.frame ln) snap (.norm ln)
    (stampInv_of_preserve h2.1 h2.2 h)
  have h4 := record_loop_begin_stamps
    (record_env (record_loop_end s0 snap.frame ln) snap (.norm ln)) snap.frame ln
  exact stampInv_of_preserve h4.1 h4.2 h3

/-- A before-statement notification preserves density. -/
theorem user_line_stampInv (s : LoggerSt) (snap : FrameSnap) (f_lineno : Nat)
    (h : StampInv s) : StampInv (user_line s snap f_lineno) := by
  unfold user_line
  split
  · split
    · exact h
    · exact record_sequence_stampInv _ snap (f_lineno - 1) h
  · split
    · exact h
    · exact record_sequence_stampInv _ snap (f_lineno - 1) h

/-- A return notification preserves density: the recording stamps at most
one new time, and the value/banner attachment and the rerun loop-end
detection stamp nothing. -/
theorem user_return_stampInv (s : LoggerSt) (snap : FrameSnap) (f_lineno : Nat)
    (rvv : Value) (h : StampInv s) : StampInv (user_return s snap f_lineno rvv).1 := by
  unfold user_return
  split
  · exact h
  · dsimp only
    split
    · split
      · exact stampInv_of_preserve (dataStamps_ensureKey _ _) rfl
          (record_env_stampInv s snap (.ret (f_lineno - 1)) h)
      · refine stampInv_of_preserve (record_loop_end_stamps _ _ _).1
          (record_loop_end_stamps _ _ _).2 ?_
        refine stampInv_of_preserve ?_ ?_
          (record_env_stampInv s snap (.ret (f_lineno - 1)) h)
        · refine (dataStamps_dataModifyLast _ _ ?_ _).trans (dataStamps_ensureKey _ _)
          intro e
          dsimp only
          split
          · rfl
          · rfl
        · rfl
    · refine stampInv_of_preserve (record_loop_end_stamps _ _ _).1
        (record_loop_end_stamps _ _ _).2 ?_
      exact record_env_stampInv s snap (.ret (f_lineno - 1)) h

/-- Dispatching any notification preserves density. -/
theorem stepEvent_stampInv (s : LoggerSt) (ev : Event) (h : StampInv s) :
    StampInv (stepEvent s ev).1 := by
  cases ev with
  | line snap ln => exact user_line_stampInv s snap ln h
  | exc snap e => exact h
  | ret snap ln rvv => exact user_return_stampInv s snap ln rvv h

/-- Processing any event list preserves density. -/
theorem runEvents_stampInv : ∀ (events : List Event) (s : LoggerSt),
    StampInv s → StampInv (runEvents s events).1 := by
  intro events
  induction events with
  | nil => intro s h; exact h
  | cons ev rest ih =>
    intro s h
    unfold runEvents
    split
    · exact h
    · split
      next s' heq =>
        have hst := stepEvent_stampInv s ev h
        rw [heq] at hst
        exact ih s' hst
      next s' err heq =>
        have hst := stepEvent_stampInv s ev h
        rw [heq] at hst
        exact hst

/-- The run's final state is the event fold's final state, whatever the
terminal exception. -/
theorem runLogger_fst (lines : List (List Char)) (events : List Event)
    (targetExc : Option ExcInfo) :
    (runLogger lines events targetExc).1 = (runEvents (initLogger lines) events).1 := by
  unfold runLogger
  cases hr : runEvents (initLogger lines) events with
  | mk s ierr =>
    cases ierr with
    | none =>
      dsimp only
      split <;> rfl
    | some e => rfl

/-- C10 (confirmed).  After processing any notification trace, the time
stamps of the recorded Environments are exactly 0, 1, …, time-1, each
occurring exactly once: every recording stamps the current counter and
advances it by one, markers are unstamped, and no other operation touches
the counter or a stored stamp. -/
theorem c10_time_stamps_are_dense (lines : List (List Char)) (events : List Event)
    (targetExc : Option ExcInfo) (t : Nat) :
    (dataStamps (runLogger lines events targetExc).1.data).count t
      = if t < (runLogger lines events targetExc).1.time then 1 else 0 := by
  have hinit : StampInv (initLogger lines) := by
    intro u
    simp [initLogger, dataStamps]
  have h := runEvents_stampInv events (initLogger lines) hinit
  rw [runLogger_fst]
  exact h t
